import Mathlib

set_option autoImplicit false

/-!
# ZeroClaw channel concurrency and dispatch subsystem — verification

A shallow embedding of the message dispatch loop, the per-message processing
pipeline, and the plugin subprocess protocol of the zeroclaw gateway
(`src/channels/message_pipeline.rs`, `src/channels/startup.rs`,
`src/channels/plugin.rs`, `src/memory/plugin.rs`), with theorems settling the
stated properties of the specification.

Strings are modelled on their character lists so that every definition
evaluates inside the kernel. Helpers of the repository that live in modules
not shipped here (`channels/mod.rs`, `agent/loop_.rs`, `providers`) are
modelled from the specification and carry a doc comment saying so.
-/

namespace ZeroClaw

/-! ## String helpers (kernel-computable counterparts of the Rust std calls) -/

/-- ASCII whitespace predicate used to model Rust's `str::trim` on the
whitespace characters that actually occur in the modelled strings. -/
def isWs (c : Char) : Bool := c = ' ' || c = '\t' || c = '\n' || c = '\r'

/-- Model of Rust `str::trim`: drop whitespace from both ends. -/
def strTrim (s : String) : String :=
  String.mk (((s.data.dropWhile isWs).reverse.dropWhile isWs).reverse)

/-- `isPrefixList a b` : the list `a` is a prefix of the list `b`. -/
def isPrefixList : List Char → List Char → Bool
  | [], _ => true
  | _ :: _, [] => false
  | a :: as, b :: bs => a = b && isPrefixList as bs

/-- `containsList needle hay` : `needle` occurs contiguously inside `hay`. -/
def containsList (needle : List Char) : List Char → Bool
  | [] => isPrefixList needle []
  | c :: rest => isPrefixList needle (c :: rest) || containsList needle rest

/-- Substring containment on strings (model of Rust `str::contains`). -/
def strContains (hay needle : String) : Bool := containsList needle.data hay.data

/-- ASCII lower-casing of one character (model of `u8::to_ascii_lowercase`). -/
def asciiLowerChar (c : Char) : Char :=
  if 'A' ≤ c && c ≤ 'Z' then Char.ofNat (c.toNat + 32) else c

/-- Model of Rust `str::eq_ignore_ascii_case`. -/
def eqIgnoreAsciiCase (a b : String) : Bool :=
  a.data.map asciiLowerChar = b.data.map asciiLowerChar

theorem isPrefixList_refl (l : List Char) : isPrefixList l l = true := by
  induction l with
  | nil => rfl
  | cons a as ih => simp [isPrefixList, ih]

theorem containsList_self (l : List Char) : containsList l l = true := by
  cases l with
  | nil => rfl
  | cons c rest => simp [containsList, isPrefixList_refl]

theorem containsList_append_left (pre n : List Char) :
    containsList n (pre ++ n) = true := by
  induction pre with
  | nil => simpa using containsList_self n
  | cons p ps ih => simp [containsList, ih]

/-- A string always contains its own suffix (used for the error messages the
plugin layer assembles by appending the plugin-supplied detail). -/
theorem strContains_append_right (a b : String) : strContains (a ++ b) b = true := by
  show containsList b.data (a ++ b).data = true
  have hdata : (a ++ b).data = a.data ++ b.data := by
    cases a; cases b; rfl
  rw [hdata]
  exact containsList_append_left a.data b.data

/-! ## Data model -/

/-- A channel message as produced by a `Channel` listener
(`traits::ChannelMessage`). -/
structure ChannelMessage where
  id : String
  sender : String
  reply_target : String
  content : String
  channel : String
  timestamp : Nat
  thread_ts : Option String
deriving DecidableEq, Repr

/-- One conversation turn (`ChatMessage`): a role and its content. -/
structure ChatMessage where
  role : String
  content : String
deriving DecidableEq, Repr

/-- `ChatMessage::user` constructor. -/
def ChatMessage.user (c : String) : ChatMessage := ⟨"user", c⟩

/-- `ChatMessage::assistant` constructor. -/
def ChatMessage.assistant (c : String) : ChatMessage := ⟨"assistant", c⟩

/-! ## Plugin subprocess protocol (`channels/plugin.rs` / `memory/plugin.rs`)

`CommandPluginChannel::invoke` and `CommandPluginMemory::invoke` are
identical ladders over the subprocess outcome, differing only in the
subsystem label spliced into the error messages; they are modelled by one
function parameterised by that label. The subprocess outcome (whether the
wait timed out, the exit status, the captured output) and the result of the
`serde_json` parse of the trimmed stdout are inputs, since process execution
and JSON decoding are external to the modelled code. -/

/-- Plugin subprocess response document (`PluginChannelResponse` /
`PluginMemoryResponse`): `ok` defaults to false when absent, `data` is an
op-specific payload or null, `error` defaults to none when absent. -/
structure PluginResponse (α : Type) where
  ok : Bool
  data : Option α
  error : Option String
deriving DecidableEq, Repr

/-- Observable outcome of one plugin subprocess execution:
whether the caller-side timeout elapsed, whether the exit status was a
success, the numeric exit code when there is one (none = killed by signal),
and the captured standard output / standard error. -/
structure SubprocessOutcome where
  timedOut : Bool
  statusSuccess : Bool
  statusCode : Option Int
  stdout : String
  stderr : String
deriving DecidableEq, Repr

/-- Result of one plugin invocation: a hard failure with a message, or a
successful decode carrying the (possibly null) data payload. -/
inductive InvokeResult (α : Type) where
  | failure (message : String)
  | success (data : Option α)
deriving DecidableEq, Repr

/-- The non-blank plugin error detail, defaulting to the fixed fallback:
`parsed.error.filter(|msg| !msg.trim().is_empty()).unwrap_or("unknown plugin error")`. -/
def pluginErrorDetail (err : Option String) : String :=
  match err with
  | some msg => if strTrim msg = "" then "unknown plugin error" else msg
  | none => "unknown plugin error"

/-- The decision ladder of `CommandPluginChannel::invoke` (channels/plugin.rs
lines 170–219) and `CommandPluginMemory::invoke` (memory/plugin.rs lines
112–161): timeout, then exit status, then empty trimmed stdout, then JSON
decode, then the `ok` flag; only a parsed document with `ok: true` succeeds.
`subsystem` is `"channel"` or `"memory"`; `parsed` is the serde decode of the
trimmed stdout (`none` = decode error). -/
def pluginInvoke {α : Type} (subsystem pluginId operation : String)
    (timeoutSecs : Nat) (out : SubprocessOutcome)
    (parsed : Option (PluginResponse α)) : InvokeResult α :=
  if out.timedOut then
    .failure (subsystem ++ " plugin '" ++ pluginId ++ "' timed out after "
      ++ toString timeoutSecs ++ "s")
  else if !out.statusSuccess then
    .failure (subsystem ++ " plugin '" ++ pluginId ++ "' exited with status "
      ++ (match out.statusCode with
          | some code => toString code
          | none => "signal")
      ++ ": " ++ strTrim out.stderr)
  else if strTrim out.stdout = "" then
    .failure (subsystem ++ " plugin '" ++ pluginId ++ "' returned an empty response")
  else
    match parsed with
    | none => .failure ("decode " ++ subsystem ++ " plugin response JSON")
    | some r =>
      if !r.ok then
        .failure (subsystem ++ " plugin '" ++ pluginId ++ "' failed '"
          ++ operation ++ "': " ++ pluginErrorDetail r.error)
      else
        .success r.data

/-- An invocation result is a failure for some message. -/
def InvokeResult.isFailure {α : Type} : InvokeResult α → Prop
  | .failure _ => True
  | .success _ => False

instance {α : Type} (r : InvokeResult α) : Decidable r.isFailure := by
  cases r <;> simp [InvokeResult.isFailure] <;> infer_instance

/-! ## Per-message processing pipeline (`process_channel_message`)

The pipeline is modelled from the point where the user's turn is appended to
the conversation history (message_pipeline.rs line 101) through the final
reaction swap (lines 594–602). The observable behaviour is an ordered list
of operations (history mutations, channel calls, observability events)
together with the resulting conversation history for this message's key.
External collaborators (the provider call, the hook runner, serde, the
channel's draft support) are inputs. -/

/-- Modelled from the spec: `conversation_history_key` lives in
`channels/mod.rs`, which is not under src/; §3 says the conversation key is
derived deterministically from channel + sender (+ thread). -/
def conversation_history_key (m : ChannelMessage) : String :=
  m.channel ++ "|" ++ m.sender ++ (match m.thread_ts with
    | some t => "|" ++ t
    | none => "")

/-- Modelled from the spec: `crate::agent::loop_::DRAFT_CLEAR_SENTINEL` is
not under src/; §4.5 only requires a reserved clear sentinel value. -/
def DRAFT_CLEAR_SENTINEL : String := "__ZEROCLAW_DRAFT_CLEAR__"

/-- Modelled from the spec: `CHANNEL_HOOK_MAX_OUTBOUND_CHARS` lives in
`channels/mod.rs`, which is not under src/; §4.5 only requires a fixed
length cap on hook-modified outbound content. -/
def CHANNEL_HOOK_MAX_OUTBOUND_CHARS : Nat := 4000

/-- Modelled from the spec: `truncate_with_ellipsis` lives in
`channels/mod.rs`, which is not under src/; overflow is truncated with an
ellipsis (§4.5). -/
def truncate_with_ellipsis (s : String) (n : Nat) : String :=
  if s.data.length ≤ n then s else String.mk (s.data.take n) ++ "…"

/-- Modelled from the spec: `providers::sanitize_api_error` is not under
src/; §7 says credentials and API error bodies are scrubbed before display.
Modelled as redacting any error text carrying a credential marker. -/
def sanitize_api_error (e : String) : String :=
  if strContains e "sk-" then "[credential scrubbed]" else e

/-- Modelled from the spec: `rollback_orphan_user_turn` lives in
`channels/mod.rs`, which is not under src/; §8 says a capability-unsupported
error removes exactly the most recent user turn matching the failed
message's content, leaving prior history untouched. Returns the new history
and whether a turn was removed. -/
def rollback_orphan_user_turn (hist : List ChatMessage) (content : String) :
    List ChatMessage × Bool :=
  match rollbackRev hist.reverse content with
  | some rest => (rest.reverse, true)
  | none => (hist, false)
where
  /-- Remove the first user turn with the given content from a reversed
  history (that is, the most recent matching user turn). -/
  rollbackRev : List ChatMessage → String → Option (List ChatMessage)
    | [], _ => none
    | t :: rest, c =>
      if t.role = "user" && t.content = c then some rest
      else (rollbackRev rest c).map (t :: ·)

/-- Modelled from the spec: `compact_sender_history` lives in
`channels/mod.rs`, which is not under src/; §4.5(b) says a context-window
overflow triggers a best-effort compaction keeping the latest context,
reporting whether anything was compacted. -/
def compact_sender_history (hist : List ChatMessage) : List ChatMessage × Bool :=
  if hist.length ≤ 2 then (hist, false)
  else (hist.drop (hist.length - 2), true)

/-- Modelled from the spec: `channel_message_timeout_budget_secs` lives in
`channels/mod.rs`, which is not under src/; §4.5 says the budget is the base
message timeout scaled upward by the maximum tool-call iteration count. -/
def channel_message_timeout_budget_secs (base maxToolIterations : Nat) : Nat :=
  base * max 1 maxToolIterations

/-- Provider errors as classified by the pipeline's ladder
(message_pipeline.rs lines 428–516): `is_tool_loop_cancelled`,
`is_context_window_overflow_error`, the `ProviderCapabilityError` downcast
(carrying its capability name), or any other error. Each constructor carries
the error's display text. -/
inductive ProviderError where
  | toolLoopCancelled (text : String)
  | contextOverflow (text : String)
  | capability (cap : String) (text : String)
  | generic (text : String)
deriving DecidableEq, Repr

/-- Display text of a provider error (the `{e}` in the Rust format strings). -/
def ProviderError.text : ProviderError → String
  | .toolLoopCancelled t => t
  | .contextOverflow t => t
  | .capability _ t => t
  | .generic t => t

/-- `crate::agent::loop_::is_tool_loop_cancelled` on the classified error. -/
def isToolLoopCancelled : ProviderError → Bool
  | .toolLoopCancelled _ => true
  | _ => false

/-- `is_context_window_overflow_error` on the classified error. -/
def isContextWindowOverflowError : ProviderError → Bool
  | .contextOverflow _ => true
  | _ => false

/-- The capability rollback test (message_pipeline.rs lines 514–516): the
error downcasts to `ProviderCapabilityError` and its capability equals
`"vision"` ignoring ASCII case. -/
def shouldRollbackUserTurn : ProviderError → Bool
  | .capability cap _ => eqIgnoreAsciiCase cap "vision"
  | _ => false

/-- The four-way result of the `select!` race (the `LlmExecutionResult`
enum plus the nested provider result): cancellation token fired, provider
returned a reply, provider returned an error, or the timeout elapsed. -/
inductive LlmResult where
  | cancelled
  | completedOk (response : String)
  | completedErr (e : ProviderError)
  | timedOut
deriving DecidableEq, Repr

/-- Outcome of the `on_message_sending` hook (`crate::hooks::HookResult`). -/
inductive HookOutcome where
  | cancel (reason : String)
  | cont (channel recipient content : String)
deriving DecidableEq, Repr

/-- One observable operation of the pipeline, in program order: conversation
history mutations, channel calls, and observability events. -/
inductive Op where
  | appendTurn (key : String) (turn : ChatMessage)
  | rollbackUserTurn (key content : String) (removed : Bool)
  | compactHistory (key : String) (compacted : Bool)
  | sendDraft (recipient content : String) (resultId : Option String)
  | updateDraft (recipient draftId text : String)
  | finalizeDraft (recipient draftId text : String)
  | cancelDraft (recipient draftId : String)
  | send (content recipient : String) (thread : Option String)
  | addReaction (target msgId emoji : String)
  | removeReaction (target msgId emoji : String)
  | traceEvent (name : String) (errorDetail : Option String)
deriving DecidableEq, Repr

/-- Inputs of one pipeline run. Oracles stand for the external collaborators:
`sendDraftResult` is what `channel.send_draft` returned (none on error or no
id), `deltas` is the provider's delta stream, `outcome` the race result,
`hookSending` the `on_message_sending` hook result (none = no hook runner),
`lateCancelSeen` the `cancellation_token.is_cancelled()` re-check in the
error branch, `finalizeFails` whether `channel.finalize_draft` fails on the
success path, `toolSummary` the `extract_tool_context_summary` output and
`sanitizeResp` the `sanitize_channel_response` function. -/
structure PipelineEnv where
  msg : ChannelMessage
  hasChannel : Bool
  supportsDrafts : Bool
  sendDraftResult : Option String
  deltas : List String
  outcome : LlmResult
  hookSending : Option HookOutcome
  lateCancelSeen : Bool
  finalizeFails : Bool
  toolSummary : String
  sanitizeResp : String → String
  messageTimeoutSecs : Nat
  maxToolIterations : Nat

namespace PipelineEnv

/-- `use_streaming` (message_pipeline.rs lines 128–130): the target channel
exists and supports draft updates. -/
def useStreaming (env : PipelineEnv) : Bool := env.hasChannel && env.supportsDrafts

/-- `draft_message_id` (lines 147–166): only requested when streaming; the
channel's answer is the oracle `sendDraftResult`. -/
def draftMessageId (env : PipelineEnv) : Option String :=
  if env.useStreaming then env.sendDraftResult else none

/-- The history key of this message. -/
def key (env : PipelineEnv) : String := conversation_history_key env.msg

end PipelineEnv

/-- The draft updater task (message_pipeline.rs lines 168–194): accumulate
deltas, where the reserved clear sentinel resets the accumulation and emits
no update, and every other delta extends it and updates the draft with the
whole accumulated text. -/
def draftUpdateOps (recipient draftId : String) :
    String → List String → List Op
  | _, [] => []
  | acc, delta :: rest =>
    if delta = DRAFT_CLEAR_SENTINEL then draftUpdateOps recipient draftId "" rest
    else
      .updateDraft recipient draftId (acc ++ delta) ::
        draftUpdateOps recipient draftId (acc ++ delta) rest

/-- The final reaction emoji (lines 266–269): `✅` exactly when the race
completed with a provider reply, `⚠️` otherwise. -/
def reactionDoneEmoji : LlmResult → String
  | .completedOk _ => "✅"
  | _ => "⚠️"

/-- The closing reaction swap (lines 594–602): best-effort remove of the
acknowledgment reaction then the final reaction. -/
def tailReactionOps (env : PipelineEnv) : List Op :=
  if env.hasChannel then
    [.removeReaction env.msg.reply_target env.msg.id "👀",
     .addReaction env.msg.reply_target env.msg.id (reactionDoneEmoji env.outcome)]
  else []

/-- The finalize-or-send delivery used by the overflow, generic-error and
timeout branches (errors of both calls are discarded with `let _ =`). -/
def deliverTextOps (env : PipelineEnv) (text : String) : List Op :=
  if env.hasChannel then
    match env.draftMessageId with
    | some d => [.finalizeDraft env.msg.reply_target d text]
    | none => [.send text env.msg.reply_target env.msg.thread_ts]
  else []

/-- The cancellation handling shared by the `Cancelled` race arm (lines
271–298) and the cancelled-shaped error arm (lines 428–454): record the
event, cancel an open draft, and touch nothing else. -/
def cancelPathOps (env : PipelineEnv) (detail : String) : List Op :=
  [.traceEvent "channel_message_cancelled" (some detail)] ++
  (match env.hasChannel, env.draftMessageId with
   | true, some d => [.cancelDraft env.msg.reply_target d]
   | _, _ => []) ++
  tailReactionOps env

/-- The `Completed(Ok(Ok(response)))` arm (lines 299–426): run the outbound
hook (a veto returns from the whole function at once), cap hook-modified
content, sanitize, record the event, append the assistant turn, deliver via
draft finalize (falling back to a plain send when finalize fails) or plain
send, then swap reactions. Returns the ops and the new history. -/
def successPath (env : PipelineEnv) (response : String)
    (hist : List ChatMessage) : List Op × List ChatMessage :=
  match env.hookSending with
  | some (.cancel _) => ([], hist)
  | hookRes =>
    let outbound : String :=
      match hookRes with
      | some (.cont _ _ modified) =>
        if modified.data.length > CHANNEL_HOOK_MAX_OUTBOUND_CHARS then
          truncate_with_ellipsis modified CHANNEL_HOOK_MAX_OUTBOUND_CHARS
        else modified
      | _ => response
    let sanitized := env.sanitizeResp outbound
    let delivered :=
      if sanitized = "" && !(strTrim outbound = "") then
        "I encountered malformed tool-call output and could not produce a safe reply. Please try again."
      else sanitized
    let historyResponse :=
      if env.toolSummary = "" || env.msg.channel = "telegram" then delivered
      else env.toolSummary ++ "\n" ++ delivered
    let deliveryOps : List Op :=
      if env.hasChannel then
        match env.draftMessageId with
        | some d =>
          .finalizeDraft env.msg.reply_target d delivered ::
            (if env.finalizeFails then
              [.send delivered env.msg.reply_target env.msg.thread_ts]
            else [])
        | none => [.send delivered env.msg.reply_target env.msg.thread_ts]
      else []
    ([.traceEvent "channel_message_outbound" none,
      .appendTurn env.key (ChatMessage.assistant historyResponse)] ++
     deliveryOps ++ tailReactionOps env,
     hist ++ [ChatMessage.assistant historyResponse])

/-- The assistant sentinel closing a failed request (line 526). -/
def failedSentinel : ChatMessage :=
  ChatMessage.assistant "[Task failed — not continuing this request]"

/-- The assistant sentinel closing a timed-out request (line 573). -/
def timedOutSentinel : ChatMessage :=
  ChatMessage.assistant "[Task timed out — not continuing this request]"

/-- The `Completed(Ok(Err(e)))` arm (lines 427–543): cancelled-shaped errors
join the cancellation path; context-window overflow compacts the history and
notifies; a vision capability error rolls back the orphan user turn; every
other error (or a failed rollback) appends the failure sentinel; then the
error text is delivered raw as `⚠️ Error: {e}` while the sanitized copy goes
only into the trace event. -/
def errorPath (env : PipelineEnv) (e : ProviderError)
    (hist : List ChatMessage) : List Op × List ChatMessage :=
  if isToolLoopCancelled e || env.lateCancelSeen then
    (cancelPathOps env "cancelled during tool-call loop", hist)
  else if isContextWindowOverflowError e then
    let compacted := compact_sender_history hist
    let errorText :=
      if compacted.2 then
        "⚠️ Context window exceeded for this conversation. I compacted recent history and kept the latest context. Please resend your last message."
      else
        "⚠️ Context window exceeded for this conversation. Please resend your last message."
    ([.compactHistory env.key compacted.2,
      .traceEvent "channel_message_error" (some "context window exceeded")] ++
     deliverTextOps env errorText ++ tailReactionOps env,
     compacted.1)
  else
    let safeError := sanitize_api_error e.text
    let rb :=
      if shouldRollbackUserTurn e then rollback_orphan_user_turn hist env.msg.content
      else (hist, false)
    let rolledBack := shouldRollbackUserTurn e && rb.2
    ([.traceEvent "channel_message_error" (some safeError)] ++
     (if shouldRollbackUserTurn e then
        [.rollbackUserTurn env.key env.msg.content rb.2]
      else []) ++
     (if rolledBack then [] else [.appendTurn env.key failedSentinel]) ++
     deliverTextOps env ("⚠️ Error: " ++ e.text) ++ tailReactionOps env,
     if rolledBack then rb.1 else rb.1 ++ [failedSentinel])

/-- The `Completed(Err(Elapsed))` arm (lines 545–591): record the timeout,
append the timed-out sentinel, notify the channel. -/
def timeoutPath (env : PipelineEnv) (hist : List ChatMessage) :
    List Op × List ChatMessage :=
  let budget :=
    channel_message_timeout_budget_secs env.messageTimeoutSecs env.maxToolIterations
  let timeoutMsg :=
    "LLM response timed out after " ++ toString budget ++ "s (base=" ++
    toString env.messageTimeoutSecs ++ "s, max_tool_iterations=" ++
    toString env.maxToolIterations ++ ")"
  ([.traceEvent "channel_message_timeout" (some timeoutMsg),
    .appendTurn env.key timedOutSentinel] ++
   deliverTextOps env
     "⚠️ Request timed out while waiting for the model. Please try again." ++
   tailReactionOps env,
   hist ++ [timedOutSentinel])

/-- Everything after the provider race (the `match llm_result` at line 271
through line 602), as ordered ops plus the resulting history for this
message's key. `hist` is the history at race time (user turn included). -/
def postRace (env : PipelineEnv) (hist : List ChatMessage) :
    List Op × List ChatMessage :=
  match env.outcome with
  | .cancelled => (cancelPathOps env "cancelled due to newer inbound message", hist)
  | .completedOk response => successPath env response hist
  | .completedErr e => errorPath env e hist
  | .timedOut => timeoutPath env hist

/-- The ops before the provider race, from the user-turn append (line 101)
through the draft setup, the acknowledgment reaction (line 197) and the
draft updater's stream. -/
def preRaceOps (env : PipelineEnv) : List Op :=
  .appendTurn env.key (ChatMessage.user env.msg.content) ::
  ((if env.useStreaming then
      [.sendDraft env.msg.reply_target "..." env.sendDraftResult]
    else []) ++
   (if env.hasChannel then
      [.addReaction env.msg.reply_target env.msg.id "👀"]
    else []) ++
   (match env.draftMessageId with
    | some d =>
      if env.hasChannel then draftUpdateOps env.msg.reply_target d "" env.deltas
      else []
    | none => []))

/-- One whole pipeline run over the modelled region: the pre-race ops, then
the outcome handling, with the history threaded through (the user turn is
appended before the race, line 101). `hist0` is the stored history for this
message's key when the message arrives. -/
def pipelineRun (env : PipelineEnv) (hist0 : List ChatMessage) :
    List Op × List ChatMessage :=
  let raced := postRace env (hist0 ++ [ChatMessage.user env.msg.content])
  (preRaceOps env ++ raced.1, raced.2)

/-! ## Dispatch worker pool (`run_message_dispatch_loop`)

The dispatch loop and its spawned workers (message_pipeline.rs lines
605–683) are modelled as a small-step transition system. The atomic actions
are exactly the cross-task-visible operations of the Rust code: popping the
bus and acquiring a permit, the `task_sequence.fetch_add`, the map insert
under the async mutex, cancelling a token, the completion wait, the guarded
map removal, `mark_done`, and the permit drop. A schedule chooses which
ready task steps next, so every interleaving the tokio runtime could produce
is a trace of this system. The pipeline body is collapsed to a start step
(observable as `bodyStarted`, after the `is_cancelled` entry check of
`process_channel_message`) and a completion step, which is all the
interruption claims observe of it. -/

/-- Modelled from the spec: `interruption_scope_key` lives in
`channels/mod.rs`, which is not under src/; §2 and the glossary define the
interruption scope as the channel + sender pair. -/
def interruption_scope_key (m : ChannelMessage) : String × String :=
  (m.channel, m.sender)

/-- The interruption scope key type. -/
abbrev ScopeKey := String × String

/-- `InFlightSenderTaskState`: the map value holds the owning task's id and
(shared handles to) its cancellation token and completion signal; the
handles are modelled by the owning task's index in the task list. -/
structure InFlightEntry where
  taskIdx : Nat
  taskId : Nat
deriving DecidableEq, Repr

/-- Program counter of one spawned worker, naming the next atomic action.
`start` performs the `task_sequence.fetch_add`; `insertEntry` the map swap
under the mutex; `cancelPrev`/`waitPrev` act on the captured previous entry;
`bodyStart` is the entry of `process_channel_message` (with its
`is_cancelled` check); `removeEntry` the guarded map removal; `markDone` the
completion signal; `release` the permit drop at the end of the async block. -/
inductive WPhase where
  | start
  | insertEntry
  | cancelPrev (prevIdx : Nat)
  | waitPrev (prevIdx : Nat)
  | bodyStart
  | bodyRun
  | removeEntry
  | markDone
  | release
  | finished
deriving DecidableEq, Repr

/-- One spawned worker task: its allocated id (0 until `start` runs), its
message, the precomputed `interrupt_enabled` flag, its program counter, and
its own cancellation-token / completion-signal cells, plus whether its
pipeline body has begun. -/
structure TaskState where
  taskId : Nat
  msg : ChannelMessage
  interruptEnabled : Bool
  phase : WPhase
  cancelled : Bool
  done : Bool
  bodyStarted : Bool
deriving DecidableEq, Repr

/-- The context the dispatch loop reads: the runtime's
`interrupt_on_new_message` policy flag. -/
structure DispatchCtx where
  interruptOnNewMessage : Bool
deriving DecidableEq, Repr

/-- The whole dispatch system: pending bus messages, available semaphore
permits, the `task_sequence` counter (starts at 1), the spawned workers in
spawn order, and the mutex-guarded in-flight map. -/
structure SysState where
  bus : List ChannelMessage
  permits : Nat
  taskSeq : Nat
  tasks : List TaskState
  inFlight : List (ScopeKey × InFlightEntry)
deriving DecidableEq, Repr

/-- Association-list lookup (model of `HashMap::get`). -/
def mapLookup (k : ScopeKey) : List (ScopeKey × InFlightEntry) → Option InFlightEntry
  | [] => none
  | (k', e) :: rest => if k' = k then some e else mapLookup k rest

/-- Remove every binding of a key (model of `HashMap::remove`; the map
never holds a key twice). -/
def mapErase (k : ScopeKey) : List (ScopeKey × InFlightEntry) →
    List (ScopeKey × InFlightEntry)
  | [] => []
  | (k', e) :: rest =>
    if k' = k then mapErase k rest else (k', e) :: mapErase k rest

/-- Replacing insert (model of `HashMap::insert`; the previous value is read
with `mapLookup` before inserting). -/
def mapInsert (k : ScopeKey) (e : InFlightEntry)
    (l : List (ScopeKey × InFlightEntry)) : List (ScopeKey × InFlightEntry) :=
  (k, e) :: mapErase k l

/-- A freshly spawned worker for one message:
`interrupt_enabled = ctx.interrupt_on_new_message && msg.channel == "telegram"`
(message_pipeline.rs lines 629–630), a fresh token and completion signal. -/
def initTask (ctx : DispatchCtx) (m : ChannelMessage) : TaskState :=
  { taskId := 0
    msg := m
    interruptEnabled := ctx.interruptOnNewMessage && decide (m.channel = "telegram")
    phase := .start
    cancelled := false
    done := false
    bodyStarted := false }

/-- One dispatch-loop iteration (lines 618–627): pop the next bus message,
acquire one permit (disabled while none is available), and spawn a worker. -/
def dispatchStep (ctx : DispatchCtx) (s : SysState) : Option SysState :=
  match s.bus with
  | [] => none
  | m :: rest =>
    if s.permits = 0 then none
    else some { s with
      bus := rest
      permits := s.permits - 1
      tasks := s.tasks ++ [initTask ctx m] }

/-- The phase a worker enters right after its map insert: cancel the
captured previous entry when there was one, else go straight to the body. -/
def phaseAfterInsert : Option InFlightEntry → WPhase
  | some p => .cancelPrev p.taskIdx
  | none => .bodyStart

/-- The guarded map removal at the end of a worker (message_pipeline.rs
lines 662–670): under interruption mode, remove the scope's entry only if it
still holds this task's id. -/
def removeGuard (flag : Bool) (k : ScopeKey) (tid : Nat)
    (m : List (ScopeKey × InFlightEntry)) : List (ScopeKey × InFlightEntry) :=
  if flag then
    match mapLookup k m with
    | some e => if e.taskId = tid then mapErase k m else m
    | none => m
  else m

/-- One atomic action of worker `i` (the body of `workers.spawn`, lines
627–673), or `none` when that worker cannot step (absent, finished, or
blocked on a predecessor's completion signal). -/
def workerStep (s : SysState) (i : Nat) : Option SysState :=
  match s.tasks[i]? with
  | none => none
  | some t =>
    match t.phase with
    | .start =>
      -- task_id = task_sequence.fetch_add(1)
      some { s with
        taskSeq := s.taskSeq + 1
        tasks := s.tasks.set i { t with
          taskId := s.taskSeq
          phase := if t.interruptEnabled then .insertEntry else .bodyStart } }
    | .insertEntry =>
      -- previous = in_flight.lock().await.insert(key, state)
      some { s with
        inFlight := mapInsert (interruption_scope_key t.msg) ⟨i, t.taskId⟩ s.inFlight
        tasks := s.tasks.set i { t with phase := phaseAfterInsert (mapLookup (interruption_scope_key t.msg) s.inFlight) } }
    | .cancelPrev p =>
      -- previous.cancellation.cancel()
      match s.tasks[p]? with
      | none => none
      | some prev =>
        some { s with tasks := List.set (s.tasks.set p { prev with cancelled := true }) i { t with phase := .waitPrev p } }
    | .waitPrev p =>
      -- previous.completion.wait().await
      match s.tasks[p]? with
      | none => none
      | some prev =>
        if prev.done then
          some { s with tasks := s.tasks.set i { t with phase := .bodyStart } }
        else none
    | .bodyStart =>
      -- process_channel_message entry; returns at once if already cancelled
      if t.cancelled then
        some { s with tasks := s.tasks.set i { t with phase := .removeEntry } }
      else
        some { s with tasks := s.tasks.set i { t with bodyStarted := true, phase := WPhase.bodyRun } }
    | .bodyRun =>
      -- the pipeline body runs to completion
      some { s with tasks := s.tasks.set i { t with phase := .removeEntry } }
    | .removeEntry =>
      -- remove the map entry only if it still holds this task's id
      some { s with
        inFlight := removeGuard t.interruptEnabled (interruption_scope_key t.msg)
          t.taskId s.inFlight
        tasks := s.tasks.set i { t with phase := .markDone } }
    | .markDone =>
      -- completion.mark_done()
      some { s with tasks := s.tasks.set i { t with done := true, phase := .release } }
    | .release =>
      -- the owned permit is dropped when the async block ends
      some { s with
        permits := s.permits + 1
        tasks := s.tasks.set i { t with phase := .finished } }
    | .finished => none

/-- A scheduling choice: let the dispatch loop step, or let worker `i`
step. -/
inductive Choice where
  | dispatch
  | worker (i : Nat)
deriving DecidableEq, Repr

/-- One step of the whole system under a scheduling choice. -/
def step (ctx : DispatchCtx) (s : SysState) : Choice → Option SysState
  | .dispatch => dispatchStep ctx s
  | .worker i => workerStep s i

/-- Run a finite schedule; fails if the schedule picks a disabled step. -/
def runSched (ctx : DispatchCtx) (s : SysState) : List Choice → Option SysState
  | [] => some s
  | c :: cs =>
    match step ctx s c with
    | some s' => runSched ctx s' cs
    | none => none

/-- Reachability under arbitrary interleavings. -/
inductive Reachable (ctx : DispatchCtx) : SysState → SysState → Prop
  | refl (s : SysState) : Reachable ctx s s
  | tail {s₁ s₂ s₃ : SysState} (h : Reachable ctx s₁ s₂) (c : Choice)
      (hstep : step ctx s₂ c = some s₃) : Reachable ctx s₁ s₃

theorem reachable_of_runSched (ctx : DispatchCtx) :
    ∀ (cs : List Choice) (s s' : SysState),
      runSched ctx s cs = some s' → Reachable ctx s s' := by
  intro cs
  induction cs with
  | nil =>
    intro s s' h
    simp only [runSched, Option.some.injEq] at h
    exact h ▸ Reachable.refl s
  | cons c cs ih =>
    intro s s' h
    simp only [runSched] at h
    cases hstep : step ctx s c with
    | none => rw [hstep] at h; exact absurd h (by simp)
    | some s₁ =>
      rw [hstep] at h
      have hreach := ih s₁ s' h
      -- prepend the head step to the tail run
      clear h
      induction hreach with
      | refl => exact Reachable.tail (Reachable.refl s) c hstep
      | tail hr c' hstep' ih' => exact Reachable.tail ih' c' hstep'

/-- The initial dispatch state: all bus messages pending, the full permit
count (`max_in_flight_messages`), `task_sequence` at 1, no workers, empty
in-flight map (lines 610–617). -/
def initState (n : Nat) (msgs : List ChannelMessage) : SysState :=
  { bus := msgs, permits := n, taskSeq := 1, tasks := [], inFlight := [] }

/-! ### List and map auxiliary lemmas -/

theorem lt_length_of_getElem?_some {α : Type} {l : List α} {i : Nat} {x : α}
    (h : l[i]? = some x) : i < l.length := by
  by_contra hn
  push_neg at hn
  rw [List.getElem?_eq_none hn] at h
  cases h

theorem getElem?_set_self_of_some {α : Type} {l : List α} {i : Nat} {y : α}
    (x : α) (h : l[i]? = some y) : (l.set i x)[i]? = some x := by
  have hlt := lt_length_of_getElem?_some h
  simp [List.getElem?_set_self', List.getElem?_eq_getElem hlt]

theorem getElem?_set_split {α : Type} {l : List α} {i : Nat} {y : α}
    (x : α) (h : l[i]? = some y) (j : Nat) :
    (l.set i x)[j]? = if j = i then some x else l[j]? := by
  by_cases hji : j = i
  · subst hji
    simp [getElem?_set_self_of_some x h]
  · simp [hji, List.getElem?_set_ne (Ne.symm hji)]

theorem getElem?_append_of_some {α : Type} {l : List α} {i : Nat} {x : α}
    (l' : List α) (h : l[i]? = some x) : (l ++ l')[i]? = some x := by
  have hlt := lt_length_of_getElem?_some h
  rw [List.getElem?_append]
  simp [hlt, h]

theorem getElem?_append_singleton {α : Type} (l : List α) (x : α) (j : Nat) :
    (l ++ [x])[j]? =
      if j < l.length then l[j]? else if j = l.length then some x else none := by
  rw [List.getElem?_append]
  by_cases hj : j < l.length
  · simp [hj]
  · rw [if_neg hj, if_neg hj]
    by_cases he : j = l.length
    · subst he
      simp
    · rw [if_neg he]
      cases hd : (j - l.length) with
      | zero => omega
      | succ m => simp

theorem countP_set_balance {α : Type} (p : α → Bool) :
    ∀ (l : List α) (i : Nat) (x a : α), l[i]? = some a →
      (l.set i x).countP p + (if p a then 1 else 0)
        = l.countP p + (if p x then 1 else 0) := by
  intro l
  induction l with
  | nil => intro i x a h; cases h
  | cons b bs ih =>
    intro i x a h
    cases i with
    | zero =>
      simp only [List.getElem?_cons_zero, Option.some.injEq] at h
      subst h
      simp only [List.set_cons_zero, List.countP_cons]
      omega
    | succ m =>
      simp only [List.getElem?_cons_succ] at h
      have := ih m x a h
      simp only [List.set_cons_succ, List.countP_cons]
      omega

theorem mapLookup_mapErase_self (k : ScopeKey) (l : List (ScopeKey × InFlightEntry)) :
    mapLookup k (mapErase k l) = none := by
  induction l with
  | nil => rfl
  | cons p rest ih =>
    obtain ⟨k', e⟩ := p
    by_cases h : k' = k
    · simpa [mapErase, h] using ih
    · simpa [mapErase, mapLookup, h] using ih

theorem mapLookup_mapErase_ne {k k' : ScopeKey} (hne : k' ≠ k)
    (l : List (ScopeKey × InFlightEntry)) :
    mapLookup k' (mapErase k l) = mapLookup k' l := by
  induction l with
  | nil => rfl
  | cons hd rest ih =>
    obtain ⟨ka, e⟩ := hd
    by_cases h : ka = k
    · subst h
      have hkk : ¬ (ka = k') := fun hc => hne hc.symm
      simp [mapErase, mapLookup, hkk, ih]
    · by_cases h' : ka = k'
      · subst h'
        simp [mapErase, mapLookup, h, ih]
      · simp [mapErase, mapLookup, h, h', ih]

theorem mapLookup_mapInsert_self (k : ScopeKey) (e : InFlightEntry)
    (l : List (ScopeKey × InFlightEntry)) :
    mapLookup k (mapInsert k e l) = some e := by
  simp [mapInsert, mapLookup]

theorem mapLookup_mapInsert_ne {k k' : ScopeKey} (hne : k' ≠ k)
    (e : InFlightEntry) (l : List (ScopeKey × InFlightEntry)) :
    mapLookup k' (mapInsert k e l) = mapLookup k' l := by
  have : ¬ (k = k') := fun hc => hne hc.symm
  simp [mapInsert, mapLookup, this, mapLookup_mapErase_ne hne]

theorem mapLookup_mapErase_sub {k k' : ScopeKey} {e : InFlightEntry}
    {l : List (ScopeKey × InFlightEntry)}
    (h : mapLookup k' (mapErase k l) = some e) : mapLookup k' l = some e := by
  by_cases hne : k' = k
  · subst hne
    rw [mapLookup_mapErase_self] at h
    cases h
  · rwa [mapLookup_mapErase_ne hne] at h

theorem removeGuard_sub {flag : Bool} {k : ScopeKey} {tid : Nat}
    {m : List (ScopeKey × InFlightEntry)} {k' : ScopeKey} {e : InFlightEntry}
    (h : mapLookup k' (removeGuard flag k tid m) = some e) :
    mapLookup k' m = some e := by
  unfold removeGuard at h
  split at h
  · split at h
    · split at h
      · exact mapLookup_mapErase_sub h
      · exact h
    · exact h
  · exact h

/-! ### The dispatch invariant -/

/-- A worker that has not yet released its permit. -/
def isUnfinished (t : TaskState) : Bool := decide (t.phase ≠ WPhase.finished)

/-- Phases that touch the interruption coordinator (the map insert, the
token cancel, the completion wait). -/
def WPhase.isCoord : WPhase → Bool
  | .insertEntry => true
  | .cancelPrev _ => true
  | .waitPrev _ => true
  | _ => false

/-- Invariant of the dispatch system, for `max_in_flight = n`:
permit accounting, id allocation (bounded and distinct), the
`interrupt_enabled` flag law, non-interrupt workers never touching the
coordinator, every in-flight map entry being owned by the task it points at
(matching id, interruption enabled, scope key, already inserted), and the
captured previous index of a cancel/wait phase never being the task
itself. -/
structure Inv (ctx : DispatchCtx) (n : Nat) (s : SysState) : Prop where
  permitsCount : s.permits + s.tasks.countP isUnfinished = n
  idBound : ∀ (i : Nat) (t : TaskState), s.tasks[i]? = some t →
    t.phase ≠ WPhase.start → t.taskId < s.taskSeq
  idDistinct : ∀ (i j : Nat) (ti tj : TaskState),
    s.tasks[i]? = some ti → s.tasks[j]? = some tj →
    ti.phase ≠ WPhase.start → tj.phase ≠ WPhase.start →
    ti.taskId = tj.taskId → i = j
  flagEq : ∀ (i : Nat) (t : TaskState), s.tasks[i]? = some t →
    t.interruptEnabled
      = (ctx.interruptOnNewMessage && decide (t.msg.channel = "telegram"))
  phaseGuard : ∀ (i : Nat) (t : TaskState), s.tasks[i]? = some t →
    t.interruptEnabled = false → t.phase.isCoord = false
  mapOwned : ∀ (k : ScopeKey) (e : InFlightEntry),
    mapLookup k s.inFlight = some e →
    ∃ t : TaskState, s.tasks[e.taskIdx]? = some t ∧ t.interruptEnabled = true ∧
      t.taskId = e.taskId ∧ t.phase ≠ WPhase.start ∧
      t.phase ≠ WPhase.insertEntry ∧ interruption_scope_key t.msg = k
  prevNe : ∀ (i : Nat) (t : TaskState), s.tasks[i]? = some t → ∀ p : Nat,
    (t.phase = WPhase.cancelPrev p ∨ t.phase = WPhase.waitPrev p) → p ≠ i

theorem inv_init (ctx : DispatchCtx) (n : Nat) (msgs : List ChannelMessage) :
    Inv ctx n (initState n msgs) := by
  constructor
  · simp [initState]
  · intro i t h; cases h
  · intro i j ti tj hi; cases hi
  · intro i t h; cases h
  · intro i t h; cases h
  · intro k e h; cases h
  · intro i t h; cases h

theorem countP_set_eq {α : Type} (p : α → Bool) {l : List α} {i : Nat} {x a : α}
    (h : l[i]? = some a) (hpx : p x = p a) : (l.set i x).countP p = l.countP p := by
  have hb := countP_set_balance p l i x a h
  rw [hpx] at hb
  omega

/-- Preservation of the invariant under a step that rewrites one task in
place (keeping its id, message and flag), possibly shrinks the in-flight
map, and moves the permit count to a value re-established by `hpermits`. -/
theorem inv_set_task (ctx : DispatchCtx) (n : Nat) (s : SysState) (i : Nat)
    (t t' : TaskState) (newPermits : Nat)
    (newMap : List (ScopeKey × InFlightEntry))
    (hinv : Inv ctx n s) (hget : s.tasks[i]? = some t)
    (hid : t'.taskId = t.taskId) (hmsg : t'.msg = t.msg)
    (hflag : t'.interruptEnabled = t.interruptEnabled)
    (hstart : t'.phase = WPhase.start → t.phase = WPhase.start)
    (hstart' : t.phase = WPhase.start → t'.phase = WPhase.start)
    (hins : t'.phase = WPhase.insertEntry → t.phase = WPhase.insertEntry)
    (hcoord : t'.interruptEnabled = false → WPhase.isCoord t'.phase = false)
    (hprev : ∀ p : Nat,
      (t'.phase = WPhase.cancelPrev p ∨ t'.phase = WPhase.waitPrev p) →
      (t.phase = WPhase.cancelPrev p ∨ t.phase = WPhase.waitPrev p))
    (hsub : ∀ (k : ScopeKey) (e : InFlightEntry), mapLookup k newMap = some e →
      mapLookup k s.inFlight = some e)
    (hpermits : newPermits + (s.tasks.set i t').countP isUnfinished = n) :
    Inv ctx n { s with
      tasks := s.tasks.set i t'
      permits := newPermits
      inFlight := newMap } := by
  constructor
  · exact hpermits
  · -- idBound
    intro j u hu hustart
    simp only at hu ⊢
    rw [getElem?_set_split t' hget j] at hu
    by_cases hji : j = i
    · rw [if_pos hji] at hu
      cases hu
      rw [hid]
      exact hinv.idBound i t hget (fun hs => hustart (hstart' hs))
    · rw [if_neg hji] at hu
      exact hinv.idBound j u hu hustart
  · -- idDistinct
    intro j j' u u' hu hu' hus hus' hids
    simp only at hu hu'
    rw [getElem?_set_split t' hget j] at hu
    rw [getElem?_set_split t' hget j'] at hu'
    by_cases hji : j = i <;> by_cases hji' : j' = i
    · omega
    · rw [if_pos hji] at hu
      rw [if_neg hji'] at hu'
      cases hu
      rw [hji]
      exact hinv.idDistinct i j' t u' hget hu'
        (fun hs => hus (hstart' hs)) hus' (by rw [← hid]; exact hids)
    · rw [if_neg hji] at hu
      rw [if_pos hji'] at hu'
      cases hu'
      rw [hji']
      exact hinv.idDistinct j i u t hu hget hus
        (fun hs => hus' (hstart' hs)) (by rw [← hid]; exact hids)
    · rw [if_neg hji] at hu
      rw [if_neg hji'] at hu'
      exact hinv.idDistinct j j' u u' hu hu' hus hus' hids
  · -- flagEq
    intro j u hu
    simp only at hu ⊢
    rw [getElem?_set_split t' hget j] at hu
    by_cases hji : j = i
    · rw [if_pos hji] at hu
      cases hu
      rw [hflag, hmsg]
      exact hinv.flagEq i t hget
    · rw [if_neg hji] at hu
      exact hinv.flagEq j u hu
  · -- phaseGuard
    intro j u hu huflag
    simp only at hu
    rw [getElem?_set_split t' hget j] at hu
    by_cases hji : j = i
    · rw [if_pos hji] at hu
      cases hu
      exact hcoord huflag
    · rw [if_neg hji] at hu
      exact hinv.phaseGuard j u hu huflag
  · -- mapOwned
    intro k e hk
    simp only at hk ⊢
    obtain ⟨u, hu, huflag, huid, hustart, huins, huscope⟩ :=
      hinv.mapOwned k e (hsub k e hk)
    by_cases hei : e.taskIdx = i
    · subst hei
      rw [hget] at hu
      cases hu
      refine ⟨t', getElem?_set_self_of_some t' hget, ?_, ?_, ?_, ?_, ?_⟩
      · rw [hflag]; exact huflag
      · rw [hid]; exact huid
      · exact fun hs => hustart (hstart hs)
      · exact fun hs => huins (hins hs)
      · rw [hmsg]; exact huscope
    · refine ⟨u, ?_, huflag, huid, hustart, huins, huscope⟩
      rw [getElem?_set_split t' hget e.taskIdx, if_neg hei]
      exact hu
  · -- prevNe
    intro j u hu p hp
    simp only at hu
    rw [getElem?_set_split t' hget j] at hu
    by_cases hji : j = i
    · rw [if_pos hji] at hu
      cases hu
      rw [hji]
      exact hinv.prevNe i t hget p (hprev p hp)
    · rw [if_neg hji] at hu
      exact hinv.prevNe j u hu p hp

/-- Every step of the dispatch system preserves the invariant. -/
theorem inv_step (ctx : DispatchCtx) (n : Nat) {s s' : SysState} {c : Choice}
    (hinv : Inv ctx n s) (hstep : step ctx s c = some s') : Inv ctx n s' := by
  cases c with
  | dispatch =>
    simp only [step, dispatchStep] at hstep
    split at hstep
    · cases hstep
    · next m rest hbuseq =>
      split at hstep
      · cases hstep
      · next hp =>
        cases hstep
        constructor
        · -- permitsCount
          have hcnt : (s.tasks ++ [initTask ctx m]).countP isUnfinished
              = s.tasks.countP isUnfinished + 1 := by
            simp [List.countP_append, List.countP_cons, isUnfinished, initTask]
          have := hinv.permitsCount
          simp only [hcnt]
          omega
        · -- idBound
          intro j u hu hus
          simp only at hu ⊢
          rw [getElem?_append_singleton] at hu
          by_cases hj : j < s.tasks.length
          · rw [if_pos hj] at hu
            exact hinv.idBound j u hu hus
          · rw [if_neg hj] at hu
            by_cases hj' : j = s.tasks.length
            · rw [if_pos hj'] at hu
              cases hu
              exact absurd rfl hus
            · rw [if_neg hj'] at hu
              cases hu
        · -- idDistinct
          intro j j' u u' hu hu' hus hus' hids
          simp only at hu hu'
          rw [getElem?_append_singleton] at hu hu'
          by_cases hj : j < s.tasks.length
          · by_cases hj2 : j' < s.tasks.length
            · rw [if_pos hj] at hu
              rw [if_pos hj2] at hu'
              exact hinv.idDistinct j j' u u' hu hu' hus hus' hids
            · rw [if_neg hj2] at hu'
              by_cases hj2' : j' = s.tasks.length
              · rw [if_pos hj2'] at hu'
                cases hu'
                exact absurd rfl hus'
              · rw [if_neg hj2'] at hu'
                cases hu'
          · rw [if_neg hj] at hu
            by_cases hj1 : j = s.tasks.length
            · rw [if_pos hj1] at hu
              cases hu
              exact absurd rfl hus
            · rw [if_neg hj1] at hu
              cases hu
        · -- flagEq
          intro j u hu
          simp only at hu ⊢
          rw [getElem?_append_singleton] at hu
          by_cases hj : j < s.tasks.length
          · rw [if_pos hj] at hu
            exact hinv.flagEq j u hu
          · rw [if_neg hj] at hu
            by_cases hj' : j = s.tasks.length
            · rw [if_pos hj'] at hu
              cases hu
              rfl
            · rw [if_neg hj'] at hu
              cases hu
        · -- phaseGuard
          intro j u hu huf
          simp only at hu
          rw [getElem?_append_singleton] at hu
          by_cases hj : j < s.tasks.length
          · rw [if_pos hj] at hu
            exact hinv.phaseGuard j u hu huf
          · rw [if_neg hj] at hu
            by_cases hj' : j = s.tasks.length
            · rw [if_pos hj'] at hu
              cases hu
              rfl
            · rw [if_neg hj'] at hu
              cases hu
        · -- mapOwned
          intro k e hk
          simp only at hk ⊢
          obtain ⟨u, hu, huflag, huid, hustart, huins, huscope⟩ := hinv.mapOwned k e hk
          exact ⟨u, getElem?_append_of_some _ hu, huflag, huid, hustart, huins, huscope⟩
        · -- prevNe
          intro j u hu p hp2
          simp only at hu
          rw [getElem?_append_singleton] at hu
          by_cases hj : j < s.tasks.length
          · rw [if_pos hj] at hu
            exact hinv.prevNe j u hu p hp2
          · rw [if_neg hj] at hu
            by_cases hj' : j = s.tasks.length
            · rw [if_pos hj'] at hu
              cases hu
              simp [initTask] at hp2
            · rw [if_neg hj'] at hu
              cases hu
  | worker i =>
    simp only [step, workerStep] at hstep
    split at hstep
    · cases hstep
    · next t hti =>
      split at hstep
      case _ hph => -- start
        cases hstep
        have hpx : isUnfinished { t with taskId := s.taskSeq, phase := if t.interruptEnabled then WPhase.insertEntry else WPhase.bodyStart } = isUnfinished t := by
          cases hb : t.interruptEnabled <;> simp [isUnfinished, hb, hph]
        constructor
        · have hpc := hinv.permitsCount
          simp only at hpc ⊢
          rw [countP_set_eq isUnfinished hti hpx]
          exact hpc
        · intro j u hu hus
          simp only at hu ⊢
          rw [getElem?_set_split _ hti j] at hu
          by_cases hji : j = i
          · rw [if_pos hji] at hu
            cases hu
            exact Nat.lt_succ_self s.taskSeq
          · rw [if_neg hji] at hu
            have := hinv.idBound j u hu hus
            omega
        · intro j j' u u' hu hu' hus hus' hids
          simp only at hu hu'
          rw [getElem?_set_split _ hti j] at hu
          rw [getElem?_set_split _ hti j'] at hu'
          by_cases hji : j = i <;> by_cases hji' : j' = i
          · rw [hji, hji']
          · rw [if_pos hji] at hu
            rw [if_neg hji'] at hu'
            cases hu
            exfalso
            have hb := hinv.idBound j' u' hu' hus'
            have hids' : s.taskSeq = u'.taskId := hids
            omega
          · rw [if_neg hji] at hu
            rw [if_pos hji'] at hu'
            cases hu'
            exfalso
            have hb := hinv.idBound j u hu hus
            have hids' : u.taskId = s.taskSeq := hids
            omega
          · rw [if_neg hji] at hu
            rw [if_neg hji'] at hu'
            exact hinv.idDistinct j j' u u' hu hu' hus hus' hids
        · intro j u hu
          simp only at hu ⊢
          rw [getElem?_set_split _ hti j] at hu
          by_cases hji : j = i
          · rw [if_pos hji] at hu
            cases hu
            exact hinv.flagEq i t hti
          · rw [if_neg hji] at hu
            exact hinv.flagEq j u hu
        · intro j u hu huf
          simp only at hu
          rw [getElem?_set_split _ hti j] at hu
          by_cases hji : j = i
          · rw [if_pos hji] at hu
            cases hu
            have huf' : t.interruptEnabled = false := huf
            simp [WPhase.isCoord, huf']
          · rw [if_neg hji] at hu
            exact hinv.phaseGuard j u hu huf
        · intro k e hk
          simp only at hk ⊢
          obtain ⟨u, hu, huflag, huid, hustart, huins, huscope⟩ := hinv.mapOwned k e hk
          have hne : ¬ (e.taskIdx = i) := by
            intro hcontra
            rw [hcontra, hti] at hu
            cases hu
            exact hustart hph
          refine ⟨u, ?_, huflag, huid, hustart, huins, huscope⟩
          rw [getElem?_set_split _ hti e.taskIdx, if_neg hne]
          exact hu
        · intro j u hu p hp2
          simp only at hu
          rw [getElem?_set_split _ hti j] at hu
          by_cases hji : j = i
          · rw [if_pos hji] at hu
            cases hu
            exfalso
            cases hb : t.interruptEnabled <;> simp [hb] at hp2
          · rw [if_neg hji] at hu
            exact hinv.prevNe j u hu p hp2
      case _ hph => -- insertEntry
        cases hstep
        have hfl : t.interruptEnabled = true := by
          cases hq : t.interruptEnabled
          · have := hinv.phaseGuard i t hti hq
            rw [hph] at this
            simp [WPhase.isCoord] at this
          · rfl
        cases hprevL : mapLookup (interruption_scope_key t.msg) s.inFlight with
        | none =>
          simp only [phaseAfterInsert]
          have hpx : isUnfinished { t with phase := WPhase.bodyStart } = isUnfinished t := by
            simp [isUnfinished, hph]
          constructor
          · have hpc := hinv.permitsCount
            simp only at hpc ⊢
            rw [countP_set_eq isUnfinished hti hpx]
            exact hpc
          · intro j u hu hus
            simp only at hu ⊢
            rw [getElem?_set_split _ hti j] at hu
            by_cases hji : j = i
            · rw [if_pos hji] at hu
              cases hu
              exact hinv.idBound i t hti (by simp [hph])
            · rw [if_neg hji] at hu
              exact hinv.idBound j u hu hus
          · intro j j' u u' hu hu' hus hus' hids
            simp only at hu hu'
            rw [getElem?_set_split _ hti j] at hu
            rw [getElem?_set_split _ hti j'] at hu'
            by_cases hji : j = i <;> by_cases hji' : j' = i
            · rw [hji, hji']
            · rw [if_pos hji] at hu
              rw [if_neg hji'] at hu'
              cases hu
              rw [hji]
              exact hinv.idDistinct i j' t u' hti hu' (by simp [hph]) hus' hids
            · rw [if_neg hji] at hu
              rw [if_pos hji'] at hu'
              cases hu'
              rw [hji']
              exact hinv.idDistinct j i u t hu hti hus (by simp [hph]) hids
            · rw [if_neg hji] at hu
              rw [if_neg hji'] at hu'
              exact hinv.idDistinct j j' u u' hu hu' hus hus' hids
          · intro j u hu
            simp only at hu ⊢
            rw [getElem?_set_split _ hti j] at hu
            by_cases hji : j = i
            · rw [if_pos hji] at hu
              cases hu
              exact hinv.flagEq i t hti
            · rw [if_neg hji] at hu
              exact hinv.flagEq j u hu
          · intro j u hu huf
            simp only at hu
            rw [getElem?_set_split _ hti j] at hu
            by_cases hji : j = i
            · rw [if_pos hji] at hu
              cases hu
              have huf' : t.interruptEnabled = false := huf
              rw [hfl] at huf'
              cases huf'
            · rw [if_neg hji] at hu
              exact hinv.phaseGuard j u hu huf
          · intro k e hk
            simp only at hk ⊢
            by_cases hkK : k = interruption_scope_key t.msg
            · subst hkK
              rw [mapLookup_mapInsert_self] at hk
              cases hk
              exact ⟨{ t with phase := WPhase.bodyStart },
                getElem?_set_self_of_some _ hti, hfl, rfl, by simp, by simp, rfl⟩
            · rw [mapLookup_mapInsert_ne hkK] at hk
              obtain ⟨u, hu, huflag, huid, hustart, huins, huscope⟩ :=
                hinv.mapOwned k e hk
              have hne : ¬ (e.taskIdx = i) := by
                intro hcontra
                rw [hcontra, hti] at hu
                cases hu
                exact hkK huscope.symm
              refine ⟨u, ?_, huflag, huid, hustart, huins, huscope⟩
              rw [getElem?_set_split _ hti e.taskIdx, if_neg hne]
              exact hu
          · intro j u hu p hp2
            simp only at hu
            rw [getElem?_set_split _ hti j] at hu
            by_cases hji : j = i
            · rw [if_pos hji] at hu
              cases hu
              exfalso
              simp at hp2
            · rw [if_neg hji] at hu
              exact hinv.prevNe j u hu p hp2
        | some p0 =>
          simp only [phaseAfterInsert]
          obtain ⟨w, hw, hwflag, hwid, hwstart, hwins, hwscope⟩ :=
            hinv.mapOwned _ p0 hprevL
          have hpx : isUnfinished { t with phase := WPhase.cancelPrev p0.taskIdx } = isUnfinished t := by
            simp [isUnfinished, hph]
          constructor
          · have hpc := hinv.permitsCount
            simp only at hpc ⊢
            rw [countP_set_eq isUnfinished hti hpx]
            exact hpc
          · intro j u hu hus
            simp only at hu ⊢
            rw [getElem?_set_split _ hti j] at hu
            by_cases hji : j = i
            · rw [if_pos hji] at hu
              cases hu
              exact hinv.idBound i t hti (by simp [hph])
            · rw [if_neg hji] at hu
              exact hinv.idBound j u hu hus
          · intro j j' u u' hu hu' hus hus' hids
            simp only at hu hu'
            rw [getElem?_set_split _ hti j] at hu
            rw [getElem?_set_split _ hti j'] at hu'
            by_cases hji : j = i <;> by_cases hji' : j' = i
            · rw [hji, hji']
            · rw [if_pos hji] at hu
              rw [if_neg hji'] at hu'
              cases hu
              rw [hji]
              exact hinv.idDistinct i j' t u' hti hu' (by simp [hph]) hus' hids
            · rw [if_neg hji] at hu
              rw [if_pos hji'] at hu'
              cases hu'
              rw [hji']
              exact hinv.idDistinct j i u t hu hti hus (by simp [hph]) hids
            · rw [if_neg hji] at hu
              rw [if_neg hji'] at hu'
              exact hinv.idDistinct j j' u u' hu hu' hus hus' hids
          · intro j u hu
            simp only at hu ⊢
            rw [getElem?_set_split _ hti j] at hu
            by_cases hji : j = i
            · rw [if_pos hji] at hu
              cases hu
              exact hinv.flagEq i t hti
            · rw [if_neg hji] at hu
              exact hinv.flagEq j u hu
          · intro j u hu huf
            simp only at hu
            rw [getElem?_set_split _ hti j] at hu
            by_cases hji : j = i
            · rw [if_pos hji] at hu
              cases hu
              have huf' : t.interruptEnabled = false := huf
              rw [hfl] at huf'
              cases huf'
            · rw [if_neg hji] at hu
              exact hinv.phaseGuard j u hu huf
          · intro k e hk
            simp only at hk ⊢
            by_cases hkK : k = interruption_scope_key t.msg
            · subst hkK
              rw [mapLookup_mapInsert_self] at hk
              cases hk
              exact ⟨{ t with phase := WPhase.cancelPrev p0.taskIdx },
                getElem?_set_self_of_some _ hti, hfl, rfl, by simp, by simp, rfl⟩
            · rw [mapLookup_mapInsert_ne hkK] at hk
              obtain ⟨u, hu, huflag, huid, hustart, huins, huscope⟩ :=
                hinv.mapOwned k e hk
              have hne : ¬ (e.taskIdx = i) := by
                intro hcontra
                rw [hcontra, hti] at hu
                cases hu
                exact hkK huscope.symm
              refine ⟨u, ?_, huflag, huid, hustart, huins, huscope⟩
              rw [getElem?_set_split _ hti e.taskIdx, if_neg hne]
              exact hu
          · intro j u hu p hp2
            simp only at hu
            rw [getElem?_set_split _ hti j] at hu
            by_cases hji : j = i
            · rw [if_pos hji] at hu
              cases hu
              have hpp : p = p0.taskIdx := by
                rcases hp2 with h | h
                · have h' : WPhase.cancelPrev p0.taskIdx = WPhase.cancelPrev p := h
                  simp at h'
                  omega
                · exact absurd h (by simp)
              intro hpi
              have hidx : p0.taskIdx = i := by omega
              rw [hidx, hti] at hw
              cases hw
              exact hwins hph
            · rw [if_neg hji] at hu
              exact hinv.prevNe j u hu p hp2
      case _ p hph => -- cancelPrev
        split at hstep
        · cases hstep
        · next prev htp =>
          cases hstep
          have hpi : p ≠ i := hinv.prevNe i t hti p (Or.inl hph)
          have hinv1 : Inv ctx n
              { s with tasks := s.tasks.set p { prev with cancelled := true } } := by
            refine inv_set_task ctx n s p prev { prev with cancelled := true }
              s.permits s.inFlight hinv htp rfl rfl rfl (fun h => h) (fun h => h)
              (fun h => h) ?_ (fun q hq => hq) (fun _ _ hk => hk) ?_
            · intro hpf
              exact hinv.phaseGuard p prev htp hpf
            · rw [countP_set_eq isUnfinished htp (by simp [isUnfinished])]
              exact hinv.permitsCount
          have hti1 : (s.tasks.set p { prev with cancelled := true })[i]? = some t := by
            rw [getElem?_set_split _ htp i, if_neg (fun h => hpi h.symm)]
            exact hti
          have hcf : t.interruptEnabled = true := by
            cases hfl : t.interruptEnabled with
            | false =>
              have := hinv.phaseGuard i t hti hfl
              rw [hph] at this
              simp [WPhase.isCoord] at this
            | true => rfl
          refine inv_set_task ctx n _ i t { t with phase := WPhase.waitPrev p }
            s.permits s.inFlight hinv1 hti1 rfl rfl rfl (by simp) (by simp [hph])
            (by simp) ?_ ?_ (fun _ _ hk => hk) ?_
          · intro hpf
            have hx : t.interruptEnabled = false := hpf
            rw [hcf] at hx
            cases hx
          · intro q hq
            rcases hq with h | h
            · exact absurd h (by simp)
            · have h' : WPhase.waitPrev p = WPhase.waitPrev q := h
              simp at h'
              rw [← h']
              exact Or.inl hph
          · rw [countP_set_eq isUnfinished hti1 (by simp [isUnfinished, hph])]
            exact hinv1.permitsCount
      case _ p hph => -- waitPrev
        split at hstep
        · cases hstep
        · next prev htp =>
          split at hstep
          · next hdone =>
            cases hstep
            refine inv_set_task ctx n s i t { t with phase := WPhase.bodyStart }
              s.permits s.inFlight hinv hti rfl rfl rfl (by simp) (by simp [hph])
              (by simp) (by simp [WPhase.isCoord]) (by simp) (fun _ _ hk => hk) ?_
            rw [countP_set_eq isUnfinished hti (by simp [isUnfinished, hph])]
            exact hinv.permitsCount
          · cases hstep
      case _ hph => -- bodyStart
        split at hstep
        · cases hstep
          refine inv_set_task ctx n s i t { t with phase := WPhase.removeEntry }
            s.permits s.inFlight hinv hti rfl rfl rfl (by simp) (by simp [hph])
            (by simp) (by simp [WPhase.isCoord]) (by simp) (fun _ _ hk => hk) ?_
          rw [countP_set_eq isUnfinished hti (by simp [isUnfinished, hph])]
          exact hinv.permitsCount
        · cases hstep
          refine inv_set_task ctx n s i t
            { t with bodyStarted := true, phase := WPhase.bodyRun }
            s.permits s.inFlight hinv hti rfl rfl rfl (by simp) (by simp [hph])
            (by simp) (by simp [WPhase.isCoord]) (by simp) (fun _ _ hk => hk) ?_
          rw [countP_set_eq isUnfinished hti (by simp [isUnfinished, hph])]
          exact hinv.permitsCount
      case _ hph => -- bodyRun
        cases hstep
        refine inv_set_task ctx n s i t { t with phase := WPhase.removeEntry }
          s.permits s.inFlight hinv hti rfl rfl rfl (by simp) (by simp [hph])
          (by simp) (by simp [WPhase.isCoord]) (by simp) (fun _ _ hk => hk) ?_
        rw [countP_set_eq isUnfinished hti (by simp [isUnfinished, hph])]
        exact hinv.permitsCount
      case _ hph => -- removeEntry
        cases hstep
        refine inv_set_task ctx n s i t { t with phase := WPhase.markDone }
          s.permits _ hinv hti rfl rfl rfl (by simp) (by simp [hph])
          (by simp) (by simp [WPhase.isCoord]) (by simp) ?_ ?_
        · intro k' e hk'
          exact removeGuard_sub hk'
        · rw [countP_set_eq isUnfinished hti (by simp [isUnfinished, hph])]
          exact hinv.permitsCount
      case _ hph => -- markDone
        cases hstep
        refine inv_set_task ctx n s i t { t with done := true, phase := WPhase.release }
          s.permits s.inFlight hinv hti rfl rfl rfl (by simp) (by simp [hph])
          (by simp) (by simp [WPhase.isCoord]) (by simp) (fun _ _ hk => hk) ?_
        rw [countP_set_eq isUnfinished hti (by simp [isUnfinished, hph])]
        exact hinv.permitsCount
      case _ hph => -- release
        cases hstep
        have hbal := countP_set_balance isUnfinished s.tasks i
          { t with phase := WPhase.finished } t hti
        refine inv_set_task ctx n s i t { t with phase := WPhase.finished }
          (s.permits + 1) s.inFlight hinv hti rfl rfl rfl (by simp) (by simp [hph])
          (by simp) (by simp [WPhase.isCoord]) (by simp) (fun _ _ hk => hk) ?_
        have hpc := hinv.permitsCount
        have h1 : isUnfinished { t with phase := WPhase.finished } = false := by
          simp [isUnfinished]

        have h2 : isUnfinished t = true := by
          simp [isUnfinished, hph]
        rw [h1, h2] at hbal
        simp at hbal
        omega
      case _ hph => -- finished
        cases hstep
/-- The invariant holds in every state reachable from an invariant state. -/
theorem inv_reachable (ctx : DispatchCtx) (n : Nat) {s s' : SysState}
    (hinv : Inv ctx n s) (h : Reachable ctx s s') : Inv ctx n s' := by
  induction h with
  | refl => exact hinv
  | tail _ c hstep ih => exact inv_step ctx n ih hstep

/-- Task `i` holds the active in-flight entry of scope `k`: the map's entry
for `k` carries the id allocated to task `i`, and task `i`'s cancellation
token has not fired. -/
def holdsEntry (s : SysState) (k : ScopeKey) (i : Nat) : Prop :=
  ∃ (e : InFlightEntry) (t : TaskState),
    mapLookup k s.inFlight = some e ∧ s.tasks[i]? = some t ∧
    t.phase ≠ WPhase.start ∧ t.taskId = e.taskId ∧ t.cancelled = false

/-- An entry of the in-flight map survives the guarded removal of a task
whose id does not match it. -/
theorem removeGuard_preserves {flag : Bool} {k0 : ScopeKey} {tid : Nat}
    {m : List (ScopeKey × InFlightEntry)} {k : ScopeKey} {e : InFlightEntry}
    (hl : mapLookup k m = some e) (hne : e.taskId ≠ tid) :
    mapLookup k (removeGuard flag k0 tid m) = some e := by
  unfold removeGuard
  split
  · by_cases hk : k = k0
    · subst hk
      rw [hl]
      show mapLookup k (if e.taskId = tid then mapErase k m else m) = some e
      rw [if_neg hne]
      exact hl
    · cases hL : mapLookup k0 m with
      | none => exact hl
      | some e0 =>
        show mapLookup k (if e0.taskId = tid then mapErase k0 m else m) = some e
        by_cases h0 : e0.taskId = tid
        · rw [if_pos h0]
          rw [mapLookup_mapErase_ne hk]
          exact hl
        · rw [if_neg h0]
          exact hl
  · exact hl

/-- C2: For every interruption scope, at most one task holds an active,
uncancelled entry in the in-flight map at a time; and a finishing task
removes its map entry only if the stored task id still equals its own id, so
an old task finishing late never removes a newer task's entry. -/
theorem inflight_entry_unique_and_guarded_removal
    (ctx : DispatchCtx) (n : Nat) (msgs : List ChannelMessage) :
    (∀ s : SysState, Reachable ctx (initState n msgs) s →
      ∀ (k : ScopeKey) (i j : Nat), holdsEntry s k i → holdsEntry s k j → i = j)
    ∧
    (∀ (s s' : SysState) (i : Nat) (t : TaskState),
      Reachable ctx (initState n msgs) s →
      s.tasks[i]? = some t → t.phase = WPhase.removeEntry →
      workerStep s i = some s' →
      ∀ (k : ScopeKey) (e : InFlightEntry), mapLookup k s.inFlight = some e →
        e.taskId ≠ t.taskId → mapLookup k s'.inFlight = some e) := by
  constructor
  · intro s hreach k i j hi hj
    have hinv := inv_reachable ctx n (inv_init ctx n msgs) hreach
    obtain ⟨e, ti, hlk, hti, htis, htid, _⟩ := hi
    obtain ⟨e', tj, hlk', htj, htjs, htjd, _⟩ := hj
    rw [hlk] at hlk'
    cases hlk'
    exact hinv.idDistinct i j ti tj hti htj htis htjs (htid.trans htjd.symm)
  · intro s s' i t _ hti hph hstep k e hl hne
    simp only [workerStep] at hstep
    split at hstep
    · cases hstep
    · next t0 hti0 =>
      rw [hti] at hti0
      cases hti0
      split at hstep
      case _ h2 => rw [hph] at h2; cases h2
      case _ h2 => rw [hph] at h2; cases h2
      case _ p h2 => rw [hph] at h2; cases h2
      case _ p h2 => rw [hph] at h2; cases h2
      case _ h2 => rw [hph] at h2; cases h2
      case _ h2 => rw [hph] at h2; cases h2
      case _ h2 =>
        cases hstep
        exact removeGuard_preserves hl hne
      case _ h2 => rw [hph] at h2; cases h2
      case _ h2 => rw [hph] at h2; cases h2
      case _ h2 => rw [hph] at h2; cases h2

/-- C3: the number of concurrently-running pipeline worker tasks never
exceeds the configured max-in-flight value: permits and unfinished workers
always balance to `n`, and the dispatch step is disabled while no permit is
available. -/
theorem worker_pool_bounded (ctx : DispatchCtx) (n : Nat)
    (msgs : List ChannelMessage) :
    ∀ s : SysState, Reachable ctx (initState n msgs) s →
      s.tasks.countP isUnfinished ≤ n ∧
      s.permits + s.tasks.countP isUnfinished = n ∧
      (s.permits = 0 → step ctx s Choice.dispatch = none) := by
  intro s hreach
  have hinv := inv_reachable ctx n (inv_init ctx n msgs) hreach
  have hpc := hinv.permitsCount
  refine ⟨by omega, hpc, ?_⟩
  intro hz
  simp only [step, dispatchStep]
  cases s.bus with
  | nil => rfl
  | cons m rest => simp [hz]

/-! ### Concrete messages and traces -/

/-- First inbound telegram message from sender `u1`. -/
def raceMsg1 : ChannelMessage :=
  { id := "m1", sender := "u1", reply_target := "u1", content := "first",
    channel := "telegram", timestamp := 100, thread_ts := none }

/-- Second inbound telegram message from the same sender. -/
def raceMsg2 : ChannelMessage :=
  { id := "m2", sender := "u1", reply_target := "u1", content := "second",
    channel := "telegram", timestamp := 101, thread_ts := none }

/-- Runtime with `interrupt_on_new_message` enabled. -/
def raceCtx : DispatchCtx := { interruptOnNewMessage := true }

/-- A schedule the tokio runtime may produce: the dispatch loop spawns both
workers, then the second message's worker runs first (allocating its id,
inserting its map entry — finding no previous — and starting its body)
before the first message's worker has executed a single step. -/
def raceSched : List Choice :=
  [.dispatch, .dispatch, .worker 1, .worker 1, .worker 1]

/-- The state reached by `raceSched`. -/
def raceState : SysState :=
  (runSched raceCtx (initState 4 [raceMsg1, raceMsg2]) raceSched).getD
    (initState 4 [raceMsg1, raceMsg2])

/-- C1: the ordering guarantee fails on the code. Both messages share an
interruption scope with interruption enabled, yet the reachable state
`raceState` has the second message's pipeline body already started while the
first message's completion signal has not fired (its worker never cancelled
anything nor awaited any completion signal, since its map insert found no
previous entry). -/
theorem dispatch_interruption_race :
    runSched raceCtx (initState 4 [raceMsg1, raceMsg2]) raceSched = some raceState
    ∧ Reachable raceCtx (initState 4 [raceMsg1, raceMsg2]) raceState
    ∧ interruption_scope_key raceMsg1 = interruption_scope_key raceMsg2
    ∧ raceCtx.interruptOnNewMessage = true
    ∧ raceMsg1.channel = "telegram" ∧ raceMsg2.channel = "telegram"
    ∧ (raceState.tasks[0]?).map TaskState.msg = some raceMsg1
    ∧ (raceState.tasks[1]?).map TaskState.msg = some raceMsg2
    ∧ (raceState.tasks[1]?).map TaskState.interruptEnabled = some true
    ∧ (raceState.tasks[1]?).map TaskState.bodyStarted = some true
    ∧ (raceState.tasks[0]?).map TaskState.done = some false
    ∧ (raceState.tasks[0]?).map TaskState.bodyStarted = some false := by
  have hrun : runSched raceCtx (initState 4 [raceMsg1, raceMsg2]) raceSched
      = some raceState := by decide
  exact ⟨hrun, reachable_of_runSched raceCtx raceSched _ _ hrun, by decide,
    rfl, rfl, rfl, by decide, by decide, by decide, by decide, by decide, by decide⟩

/-- The telegram channel's configuration block, as far as the dispatch
policy reads it (`config.channels_config.telegram`). -/
structure TelegramConfig where
  interrupt_on_new_message : Bool
deriving DecidableEq, Repr

/-- The runtime's `interrupt_on_new_message` flag as computed at startup
(startup.rs lines 246–250):
`config.channels_config.telegram.as_ref().is_some_and(|tg| tg.interrupt_on_new_message)`. -/
def startup_interrupt_on_new_message (telegram : Option TelegramConfig) : Bool :=
  match telegram with
  | some tg => tg.interrupt_on_new_message
  | none => false

/-- C10: interruption mode is active for a message iff the runtime's
`interrupt_on_new_message` flag is set and the channel is exactly
`"telegram"`; the flag itself comes from the telegram config block; and a
worker for any other channel never enters a coordinator phase (map insert,
token cancel, completion wait) and never owns an in-flight map entry. -/
theorem interruption_mode_telegram_only (ctx : DispatchCtx) (n : Nat)
    (msgs : List ChannelMessage) :
    (∀ m : ChannelMessage, (initTask ctx m).interruptEnabled = true ↔
      (ctx.interruptOnNewMessage = true ∧ m.channel = "telegram"))
    ∧ (∀ (tg : Option TelegramConfig) (m : ChannelMessage),
        (initTask { interruptOnNewMessage := startup_interrupt_on_new_message tg } m).interruptEnabled = true ↔
        ((∃ c, tg = some c ∧ c.interrupt_on_new_message = true) ∧ m.channel = "telegram"))
    ∧ (∀ s : SysState, Reachable ctx (initState n msgs) s →
        ∀ (i : Nat) (t : TaskState), s.tasks[i]? = some t →
          t.msg.channel ≠ "telegram" →
          WPhase.isCoord t.phase = false ∧
          ∀ (k : ScopeKey) (e : InFlightEntry),
            mapLookup k s.inFlight = some e → e.taskIdx ≠ i) := by
  refine ⟨?_, ?_, ?_⟩
  · intro m
    simp [initTask]
  · intro tg m
    cases tg with
    | none => simp [initTask, startup_interrupt_on_new_message]
    | some c => simp [initTask, startup_interrupt_on_new_message]
  · intro s hr i t hti hch
    have hinv := inv_reachable ctx n (inv_init ctx n msgs) hr
    have hflag := hinv.flagEq i t hti
    have hfl : t.interruptEnabled = false := by
      rw [hflag]
      simp [hch]
    refine ⟨hinv.phaseGuard i t hti hfl, ?_⟩
    intro k e hk hcontra
    obtain ⟨u, hu, huflag, _, _, _, _⟩ := hinv.mapOwned k e hk
    rw [hcontra, hti] at hu
    cases hu
    rw [hfl] at huflag
    cases huflag

/-- Extension of the race schedule: the second message's worker reaches its
guarded removal while the first message's worker has overwritten the map
entry with its own (fresher) id. -/
def c2Sched : List Choice :=
  raceSched ++ [.worker 1, .worker 0, .worker 0]

/-- The state reached by `c2Sched`. -/
def c2State : SysState :=
  (runSched raceCtx (initState 4 [raceMsg1, raceMsg2]) c2Sched).getD
    (initState 4 [raceMsg1, raceMsg2])

theorem inflight_entry_unique_and_guarded_removal_witness :
    (1 : Nat) = 1 ∧
    mapLookup ("telegram", "u1") ((workerStep c2State 1).getD c2State).inFlight
      = some ⟨0, 2⟩ := by
  have h := inflight_entry_unique_and_guarded_removal raceCtx 4 [raceMsg1, raceMsg2]
  constructor
  · refine h.1 raceState
      (reachable_of_runSched raceCtx raceSched _ _ (by decide))
      ("telegram", "u1") 1 1 ?_ ?_ <;>
    · exact ⟨⟨1, 1⟩,
        { taskId := 1, msg := raceMsg2, interruptEnabled := true,
          phase := .bodyRun, cancelled := false, done := false,
          bodyStarted := true },
        by decide, by decide, by decide, by decide, by decide⟩
  · exact h.2 c2State ((workerStep c2State 1).getD c2State) 1
      { taskId := 1, msg := raceMsg2, interruptEnabled := true,
        phase := .removeEntry, cancelled := false, done := false,
        bodyStarted := true }
      (reachable_of_runSched raceCtx c2Sched _ _ (by decide))
      (by decide) (by decide) (by decide)
      ("telegram", "u1") ⟨0, 2⟩ (by decide) (by decide)

theorem worker_pool_bounded_witness :
    raceState.tasks.countP isUnfinished ≤ 4 ∧
    raceState.permits + raceState.tasks.countP isUnfinished = 4 ∧
    (raceState.permits = 0 → step raceCtx raceState Choice.dispatch = none) :=
  worker_pool_bounded raceCtx 4 [raceMsg1, raceMsg2] raceState
    (reachable_of_runSched raceCtx raceSched _ _ (by decide))

/-- An inbound message on a non-telegram channel. -/
def wmsgSlack : ChannelMessage :=
  { id := "w1", sender := "alice", reply_target := "alice", content := "hi",
    channel := "slack", timestamp := 5, thread_ts := none }

/-- The state after dispatching the slack message's worker. -/
def c10State : SysState :=
  (runSched { interruptOnNewMessage := true } (initState 1 [wmsgSlack])
      [.dispatch]).getD (initState 1 [wmsgSlack])

theorem interruption_mode_telegram_only_witness :
    WPhase.isCoord (initTask { interruptOnNewMessage := true } wmsgSlack).phase
        = false ∧
    ∀ (k : ScopeKey) (e : InFlightEntry),
      mapLookup k c10State.inFlight = some e → e.taskIdx ≠ 0 :=
  (interruption_mode_telegram_only { interruptOnNewMessage := true } 1
      [wmsgSlack]).2.2 c10State
    (reachable_of_runSched { interruptOnNewMessage := true } [Choice.dispatch]
      (initState 1 [wmsgSlack]) c10State (by decide)) 0
    (initTask { interruptOnNewMessage := true } wmsgSlack)
    (by decide) (by decide)

/-! ### Pipeline op classifiers -/

/-- Ops that mutate the conversation history. -/
def Op.isHistoryMutation : Op → Bool
  | .appendTurn _ _ => true
  | .rollbackUserTurn _ _ _ => true
  | .compactHistory _ _ => true
  | _ => false

/-- Rollback ops. -/
def Op.isRollback : Op → Bool
  | .rollbackUserTurn _ _ _ => true
  | _ => false

/-- `update_draft` calls. -/
def Op.isUpdate : Op → Bool
  | .updateDraft _ _ _ => true
  | _ => false

/-- `send_draft` calls. -/
def Op.isDraftStart : Op → Bool
  | .sendDraft _ _ _ => true
  | _ => false

/-- Closing draft calls: `finalize_draft` or `cancel_draft`. -/
def Op.isFinalizeOrCancel : Op → Bool
  | .finalizeDraft _ _ _ => true
  | .cancelDraft _ _ => true
  | _ => false

/-- Plain `send` calls. -/
def Op.isPlainSend : Op → Bool
  | .send _ _ _ => true
  | _ => false

/-- C4: on a cancellation-shaped race outcome the pipeline leaves the
conversation history exactly as it was, performs no history mutation op (no
assistant turn, no rollback, no compaction), and cancels an open draft. -/
theorem cancelled_path_no_history_mutation (env : PipelineEnv)
    (hist : List ChatMessage)
    (hcancel : env.outcome = .cancelled ∨
      ∃ e : ProviderError, env.outcome = .completedErr e ∧
        (isToolLoopCancelled e || env.lateCancelSeen) = true) :
    (postRace env hist).2 = hist ∧
    (postRace env hist).1.countP Op.isHistoryMutation = 0 ∧
    (env.hasChannel = true → ∀ d : String, env.draftMessageId = some d →
      Op.cancelDraft env.msg.reply_target d ∈ (postRace env hist).1) := by
  have hops : ∀ detail : String,
      (cancelPathOps env detail).countP Op.isHistoryMutation = 0 ∧
      (env.hasChannel = true → ∀ d : String, env.draftMessageId = some d →
        Op.cancelDraft env.msg.reply_target d ∈ cancelPathOps env detail) := by
    intro detail
    constructor
    · cases hch : env.hasChannel <;> cases hd : env.draftMessageId <;>
        simp [cancelPathOps, tailReactionOps, hch, hd, List.countP_cons,
          List.countP_append, Op.isHistoryMutation]
    · intro hch d hd
      simp [cancelPathOps, hch, hd]
  rcases hcancel with hout | ⟨e, hout, hflag⟩
  · have hpr : postRace env hist
        = (cancelPathOps env "cancelled due to newer inbound message", hist) := by
      simp [postRace, hout]
    rw [hpr]
    exact ⟨rfl, (hops _).1, (hops _).2⟩
  · have hpr : postRace env hist
        = (cancelPathOps env "cancelled during tool-call loop", hist) := by
      simp [postRace, hout, errorPath, hflag]
    rw [hpr]
    exact ⟨rfl, (hops _).1, (hops _).2⟩

/-- A generic inbound message used by the pipeline instances. -/
def pipeMsg : ChannelMessage :=
  { id := "p1", sender := "u2", reply_target := "chat42", content := "hello there",
    channel := "telegram", timestamp := 7, thread_ts := none }

/-- Pipeline run whose provider race was cancelled while a draft was open. -/
def envC4 : PipelineEnv :=
  { msg := pipeMsg, hasChannel := true, supportsDrafts := true,
    sendDraftResult := some "d9", deltas := ["Hel", "lo"],
    outcome := .cancelled, hookSending := none, lateCancelSeen := false,
    finalizeFails := false, toolSummary := "", sanitizeResp := fun s => s,
    messageTimeoutSecs := 30, maxToolIterations := 5 }

theorem cancelled_path_no_history_mutation_witness :
    (postRace envC4 [ChatMessage.user "hello there"]).2
        = [ChatMessage.user "hello there"] ∧
    (postRace envC4 [ChatMessage.user "hello there"]).1.countP Op.isHistoryMutation
        = 0 ∧
    Op.cancelDraft "chat42" "d9" ∈ (postRace envC4 [ChatMessage.user "hello there"]).1 := by
  have h := cancelled_path_no_history_mutation envC4
    [ChatMessage.user "hello there"] (Or.inl rfl)
  exact ⟨h.1, h.2.1, h.2.2 rfl "d9" (by decide)⟩

/-- Pipeline run that ends in a generic provider error carrying a
credential-looking token, with no draft open. -/
def envC5 : PipelineEnv :=
  { msg := pipeMsg, hasChannel := true, supportsDrafts := false,
    sendDraftResult := none, deltas := [],
    outcome := .completedErr (.generic "401 unauthorized sk-SECRET"),
    hookSending := none, lateCancelSeen := false, finalizeFails := false,
    toolSummary := "", sanitizeResp := fun s => s,
    messageTimeoutSecs := 30, maxToolIterations := 5 }

/-- C5 counterexample: the error text delivered to the channel is the
raw `⚠️ Error: {e}` string, credential included; the sanitized form never
reaches any `send` call (it only goes into the trace event). -/
theorem error_delivery_not_sanitized :
    Op.send "⚠️ Error: 401 unauthorized sk-SECRET" "chat42" none
      ∈ (postRace envC5 []).1
    ∧ sanitize_api_error "401 unauthorized sk-SECRET" = "[credential scrubbed]"
    ∧ (∀ op ∈ (postRace envC5 []).1,
        (match op with
         | Op.send text _ _ => strContains text "[credential scrubbed]"
         | _ => false) = false)
    ∧ strContains "⚠️ Error: 401 unauthorized sk-SECRET" "sk-SECRET" = true
    ∧ Op.traceEvent "channel_message_error" (some "[credential scrubbed]")
      ∈ (postRace envC5 []).1 := by decide

/-- C5 amended: a generic provider error appends the failure sentinel
turn and then delivers the raw `⚠️ Error: {e}` text (the sanitized copy goes
only into the trace event); a timeout appends the timed-out sentinel turn
and then notifies the channel with the fixed timeout text. -/
theorem error_and_timeout_close_history :
    (∀ (env : PipelineEnv) (text : String) (hist : List ChatMessage),
      env.outcome = .completedErr (.generic text) → env.lateCancelSeen = false →
      (postRace env hist).1
        = Op.traceEvent "channel_message_error" (some (sanitize_api_error text))
          :: Op.appendTurn env.key failedSentinel
          :: (deliverTextOps env ("⚠️ Error: " ++ text) ++ tailReactionOps env)
      ∧ (postRace env hist).2 = hist ++ [failedSentinel]
      ∧ (env.hasChannel = true → env.draftMessageId = none →
          deliverTextOps env ("⚠️ Error: " ++ text)
            = [Op.send ("⚠️ Error: " ++ text) env.msg.reply_target env.msg.thread_ts]))
    ∧ (∀ (env : PipelineEnv) (hist : List ChatMessage),
      env.outcome = .timedOut →
      ∃ tmsg : String, (postRace env hist).1
        = Op.traceEvent "channel_message_timeout" (some tmsg)
          :: Op.appendTurn env.key timedOutSentinel
          :: (deliverTextOps env
                "⚠️ Request timed out while waiting for the model. Please try again."
              ++ tailReactionOps env)
      ∧ (postRace env hist).2 = hist ++ [timedOutSentinel]) := by
  constructor
  · intro env text hist hout hlate
    refine ⟨?_, ?_, ?_⟩
    · simp [postRace, hout, errorPath, isToolLoopCancelled, hlate,
        isContextWindowOverflowError, shouldRollbackUserTurn, ProviderError.text]
    · simp [postRace, hout, errorPath, isToolLoopCancelled, hlate,
        isContextWindowOverflowError, shouldRollbackUserTurn]
    · intro hch hd
      simp [deliverTextOps, hch, hd]
  · intro env hist hout
    refine ⟨"LLM response timed out after "
        ++ toString (channel_message_timeout_budget_secs env.messageTimeoutSecs
            env.maxToolIterations)
        ++ "s (base=" ++ toString env.messageTimeoutSecs
        ++ "s, max_tool_iterations=" ++ toString env.maxToolIterations ++ ")",
      ?_, ?_⟩
    · simp [postRace, hout, timeoutPath]
    · simp [postRace, hout, timeoutPath]

/-- Pipeline run that timed out with no draft open. -/
def envTimeout : PipelineEnv :=
  { msg := pipeMsg, hasChannel := true, supportsDrafts := false,
    sendDraftResult := none, deltas := [], outcome := .timedOut,
    hookSending := none, lateCancelSeen := false, finalizeFails := false,
    toolSummary := "", sanitizeResp := fun s => s,
    messageTimeoutSecs := 30, maxToolIterations := 5 }

theorem error_and_timeout_close_history_witness :
    (postRace envC5 []).2 = [] ++ [failedSentinel] ∧
    (postRace envTimeout []).2 = [] ++ [timedOutSentinel] := by
  refine ⟨(error_and_timeout_close_history.1 envC5 "401 unauthorized sk-SECRET"
    [] rfl rfl).2.1, ?_⟩
  obtain ⟨tmsg, _, h2⟩ := error_and_timeout_close_history.2 envTimeout [] rfl
  exact h2

theorem rollbackRev_shape (c : String) :
    ∀ (l r : List ChatMessage),
      rollback_orphan_user_turn.rollbackRev l c = some r →
      ∃ a b, l = a ++ ChatMessage.user c :: b ∧ r = a ++ b ∧
        ∀ turn ∈ a, (turn.role = "user" && turn.content = c) = false := by
  intro l
  induction l with
  | nil => intro r h; cases h
  | cons t rest ih =>
    intro r h
    by_cases hcond : (t.role = "user" && t.content = c) = true
    · rw [rollback_orphan_user_turn.rollbackRev, if_pos hcond] at h
      cases h
      refine ⟨[], rest, ?_, rfl, by intro turn hturn; cases hturn⟩
      have hcond' : t.role = "user" ∧ t.content = c := by
        simpa [Bool.and_eq_true, decide_eq_true_eq] using hcond
      obtain ⟨tr, tc⟩ := t
      obtain ⟨hr, hc⟩ := hcond'
      simp only at hr hc
      rw [hr, hc]
      rfl
    · rw [rollback_orphan_user_turn.rollbackRev, if_neg hcond] at h
      cases hrec : rollback_orphan_user_turn.rollbackRev rest c with
      | none => rw [hrec] at h; cases h
      | some r0 =>
        rw [hrec] at h
        have h' : t :: r0 = r := by simpa using h
        obtain ⟨a, b, hl, hr0, hfail⟩ := ih r0 hrec
        refine ⟨t :: a, b, by rw [hl]; rfl, by rw [← h', hr0]; rfl, ?_⟩
        intro turn hturn
        cases hturn with
        | head =>
          simp only [Bool.not_eq_true] at hcond
          exact hcond
        | tail _ hmem => exact hfail turn hmem

/-- Shape of a successful rollback: exactly the most recent user turn with
the failed message's content is removed, all earlier entries untouched, and
no matching user turn occurs after the removed one. -/
theorem rollback_orphan_user_turn_shape (hist : List ChatMessage) (c : String)
    (h : (rollback_orphan_user_turn hist c).2 = true) :
    ∃ pre post, hist = pre ++ ChatMessage.user c :: post ∧
      (rollback_orphan_user_turn hist c).1 = pre ++ post ∧
      ∀ turn ∈ post, (turn.role = "user" && turn.content = c) = false := by
  unfold rollback_orphan_user_turn at h ⊢
  cases hrev : rollback_orphan_user_turn.rollbackRev hist.reverse c with
  | none => rw [hrev] at h; exact Bool.noConfusion h
  | some rest =>
    obtain ⟨a, b, hl, hr, hfail⟩ := rollbackRev_shape c hist.reverse rest hrev
    refine ⟨b.reverse, a.reverse, ?_, ?_, ?_⟩
    · have hrr : hist.reverse.reverse = (a ++ ChatMessage.user c :: b).reverse := by
        rw [hl]
      simpa [List.reverse_append] using hrr
    · show rest.reverse = b.reverse ++ a.reverse
      rw [hr, List.reverse_append]
    · intro turn hturn
      exact hfail turn (by simpa using hturn)

theorem rollback_orphan_user_turn_noop (hist : List ChatMessage) (c : String)
    (h : (rollback_orphan_user_turn hist c).2 = false) :
    (rollback_orphan_user_turn hist c).1 = hist := by
  unfold rollback_orphan_user_turn at h ⊢
  cases hrev : rollback_orphan_user_turn.rollbackRev hist.reverse c with
  | none => rfl
  | some rest => rw [hrev] at h; exact Bool.noConfusion h

/-- Pipeline run ending in a capability error whose capability is not
vision. -/
def envC6 : PipelineEnv :=
  { msg := pipeMsg, hasChannel := true, supportsDrafts := false,
    sendDraftResult := none, deltas := [],
    outcome := .completedErr (.capability "audio" "audio input not supported"),
    hookSending := none, lateCancelSeen := false, finalizeFails := false,
    toolSummary := "", sanitizeResp := fun s => s,
    messageTimeoutSecs := 30, maxToolIterations := 5 }

/-- C6 counterexample: a capability error whose capability is `"audio"`
does not roll back the user turn; the pipeline appends the failure sentinel
instead, because the rollback test only accepts capability `"vision"`. -/
theorem capability_rollback_audio_not_rolled_back :
    shouldRollbackUserTurn (.capability "audio" "audio input not supported") = false
    ∧ Op.appendTurn (conversation_history_key pipeMsg) failedSentinel
        ∈ (postRace envC6 [ChatMessage.user "hello there"]).1
    ∧ (∀ op ∈ (postRace envC6 [ChatMessage.user "hello there"]).1,
        Op.isRollback op = false)
    ∧ (postRace envC6 [ChatMessage.user "hello there"]).2
        = [ChatMessage.user "hello there", failedSentinel] := by decide

/-- C6 amended: only a capability error whose capability equals
`"vision"` (ignoring ASCII case) rolls back the just-appended user turn; a
successful rollback removes exactly the most recent matching user turn,
leaves prior history untouched, and suppresses the failure sentinel; a
failed rollback — and any other capability — appends the sentinel. -/
theorem capability_rollback_vision_only :
    (∀ (env : PipelineEnv) (cap text : String) (hist : List ChatMessage),
      env.outcome = .completedErr (.capability cap text) →
      env.lateCancelSeen = false → eqIgnoreAsciiCase cap "vision" = true →
      (postRace env hist).1
        = Op.traceEvent "channel_message_error" (some (sanitize_api_error text))
          :: Op.rollbackUserTurn env.key env.msg.content
              (rollback_orphan_user_turn hist env.msg.content).2
          :: ((if (rollback_orphan_user_turn hist env.msg.content).2 then []
               else [Op.appendTurn env.key failedSentinel])
              ++ deliverTextOps env ("⚠️ Error: " ++ text) ++ tailReactionOps env)
      ∧ (postRace env hist).2
        = (if (rollback_orphan_user_turn hist env.msg.content).2 then
             (rollback_orphan_user_turn hist env.msg.content).1
           else hist ++ [failedSentinel]))
    ∧ (∀ (hist : List ChatMessage) (c : String),
        (rollback_orphan_user_turn hist c).2 = true →
        ∃ pre post, hist = pre ++ ChatMessage.user c :: post ∧
          (rollback_orphan_user_turn hist c).1 = pre ++ post ∧
          ∀ turn ∈ post, (turn.role = "user" && turn.content = c) = false)
    ∧ (∀ (env : PipelineEnv) (cap text : String) (hist : List ChatMessage),
      env.outcome = .completedErr (.capability cap text) →
      env.lateCancelSeen = false → eqIgnoreAsciiCase cap "vision" = false →
      (postRace env hist).1.countP Op.isRollback = 0 ∧
      Op.appendTurn env.key failedSentinel ∈ (postRace env hist).1 ∧
      (postRace env hist).2 = hist ++ [failedSentinel]) := by
  refine ⟨?_, fun hist c h => rollback_orphan_user_turn_shape hist c h, ?_⟩
  · intro env cap text hist hout hlate hvis
    constructor
    · by_cases hrb : (rollback_orphan_user_turn hist env.msg.content).2 = true
      · simp [postRace, hout, errorPath, isToolLoopCancelled, hlate,
          isContextWindowOverflowError, shouldRollbackUserTurn, hvis,
          ProviderError.text, hrb]
      · simp only [Bool.not_eq_true] at hrb
        simp [postRace, hout, errorPath, isToolLoopCancelled, hlate,
          isContextWindowOverflowError, shouldRollbackUserTurn, hvis,
          ProviderError.text, hrb]
    · by_cases hrb : (rollback_orphan_user_turn hist env.msg.content).2 = true
      · simp [postRace, hout, errorPath, isToolLoopCancelled, hlate,
          isContextWindowOverflowError, shouldRollbackUserTurn, hvis, hrb]
      · simp only [Bool.not_eq_true] at hrb
        simp [postRace, hout, errorPath, isToolLoopCancelled, hlate,
          isContextWindowOverflowError, shouldRollbackUserTurn, hvis, hrb,
          rollback_orphan_user_turn_noop hist env.msg.content hrb]
  · intro env cap text hist hout hlate hvis
    refine ⟨?_, ?_, ?_⟩
    · cases hch : env.hasChannel <;> cases hd : env.draftMessageId <;>
        simp [postRace, hout, errorPath, isToolLoopCancelled, hlate,
          isContextWindowOverflowError, shouldRollbackUserTurn, hvis,
          deliverTextOps, tailReactionOps, hch, hd, List.countP_cons,
          List.countP_append, Op.isRollback]
    · simp [postRace, hout, errorPath, isToolLoopCancelled, hlate,
        isContextWindowOverflowError, shouldRollbackUserTurn, hvis]
    · simp [postRace, hout, errorPath, isToolLoopCancelled, hlate,
        isContextWindowOverflowError, shouldRollbackUserTurn, hvis]

/-- Pipeline run ending in a vision capability error, with the user turn
still the most recent history entry. -/
def envC6v : PipelineEnv :=
  { msg := pipeMsg, hasChannel := true, supportsDrafts := false,
    sendDraftResult := none, deltas := [],
    outcome := .completedErr (.capability "ViSiOn" "image input rejected"),
    hookSending := none, lateCancelSeen := false, finalizeFails := false,
    toolSummary := "", sanitizeResp := fun s => s,
    messageTimeoutSecs := 30, maxToolIterations := 5 }

theorem capability_rollback_vision_only_witness :
    (postRace envC6v [ChatMessage.assistant "hi", ChatMessage.user "hello there"]).2
      = [ChatMessage.assistant "hi"] := by
  have h := (capability_rollback_vision_only.1 envC6v "ViSiOn"
    "image input rejected"
    [ChatMessage.assistant "hi", ChatMessage.user "hello there"]
    rfl rfl (by decide)).2
  rw [h]
  decide

/-- The success outcome was vetoed by the `on_message_sending` hook, which
returns from the whole function before reactions or draft closing. -/
def hookVetoedSuccess (env : PipelineEnv) : Bool :=
  match env.outcome, env.hookSending with
  | .completedOk _, some (.cancel _) => true
  | _, _ => false

/-- Pipeline run whose reply was vetoed by the outbound hook. -/
def envC7 : PipelineEnv :=
  { msg := pipeMsg, hasChannel := true, supportsDrafts := true,
    sendDraftResult := some "d7", deltas := [],
    outcome := .completedOk "classified reply",
    hookSending := some (.cancel "policy"), lateCancelSeen := false,
    finalizeFails := false, toolSummary := "", sanitizeResp := fun s => s,
    messageTimeoutSecs := 30, maxToolIterations := 5 }

/-- C7 counterexample: when the outbound hook vetoes a successful reply,
`process_channel_message` returns before the reaction swap: the whole
post-race phase performs no operation at all — in particular neither the
`remove_reaction` nor the final `add_reaction` call happens (and the open
draft is left unfinalized). -/
theorem reaction_swap_skipped_on_hook_veto :
    (postRace envC7 []).1 = []
    ∧ envC7.outcome = .completedOk "classified reply"
    ∧ envC7.hasChannel = true
    ∧ envC7.draftMessageId = some "d7" := by decide

/-- Every non-vetoed path of the post-race handling ends with the reaction
swap block. -/
theorem postRace_ends_with_reactions (env : PipelineEnv)
    (hist : List ChatMessage) (hveto : hookVetoedSuccess env = false) :
    ∃ pre, (postRace env hist).1 = pre ++ tailReactionOps env := by
  cases hout : env.outcome with
  | cancelled =>
    simp only [postRace, hout, cancelPathOps]
    exact ⟨_, rfl⟩
  | completedOk resp =>
    cases hhook : env.hookSending with
    | none =>
      simp only [postRace, hout, successPath, hhook]
      exact ⟨_, rfl⟩
    | some o =>
      cases o with
      | cancel reason =>
        rw [hookVetoedSuccess, hout, hhook] at hveto
        cases hveto
      | cont a b c =>
        simp only [postRace, hout, successPath, hhook]
        exact ⟨_, rfl⟩
  | completedErr e =>
    by_cases hcs : (isToolLoopCancelled e || env.lateCancelSeen) = true
    · simp only [postRace, hout, errorPath, hcs, if_true, cancelPathOps]
      exact ⟨_, rfl⟩
    · by_cases hov : isContextWindowOverflowError e = true
      · simp only [Bool.not_eq_true] at hcs
        simp only [postRace, hout, errorPath, hcs, hov]
        exact ⟨_, rfl⟩
      · simp only [Bool.not_eq_true] at hcs hov
        simp only [postRace, hout, errorPath, hcs, hov]
        exact ⟨_, rfl⟩
  | timedOut =>
    simp only [postRace, hout, timeoutPath]
    exact ⟨_, rfl⟩

/-- C7 amended: for every outcome except a hook-vetoed success, the
pipeline ends by removing the acknowledgment reaction and adding the final
reaction — the success emoji exactly on a successful completion, the
warning emoji otherwise; reaction call results are discarded. -/
theorem reaction_swap_always_except_hook_veto (env : PipelineEnv)
    (hist : List ChatMessage) (hch : env.hasChannel = true)
    (hveto : hookVetoedSuccess env = false) :
    (∃ pre, (postRace env hist).1
      = pre ++ [Op.removeReaction env.msg.reply_target env.msg.id "👀",
                Op.addReaction env.msg.reply_target env.msg.id
                  (reactionDoneEmoji env.outcome)])
    ∧ (∀ resp : String, env.outcome = .completedOk resp →
        reactionDoneEmoji env.outcome = "✅")
    ∧ ((∀ resp : String, env.outcome ≠ .completedOk resp) →
        reactionDoneEmoji env.outcome = "⚠️") := by
  refine ⟨?_, ?_, ?_⟩
  · have h := postRace_ends_with_reactions env hist hveto
    rw [tailReactionOps, hch] at h
    simpa using h
  · intro resp hr
    rw [hr]
    rfl
  · intro hnot
    cases hout : env.outcome with
    | completedOk resp => exact absurd hout (hnot resp)
    | cancelled => rfl
    | completedErr e => rfl
    | timedOut => rfl

/-- Pipeline run with a plain successful reply and no draft. -/
def envC7ok : PipelineEnv :=
  { msg := pipeMsg, hasChannel := true, supportsDrafts := false,
    sendDraftResult := none, deltas := [], outcome := .completedOk "fine",
    hookSending := none, lateCancelSeen := false, finalizeFails := false,
    toolSummary := "", sanitizeResp := fun s => s,
    messageTimeoutSecs := 30, maxToolIterations := 5 }

theorem reaction_swap_always_except_hook_veto_witness :
    (∃ pre, (postRace envC7ok []).1
      = pre ++ [Op.removeReaction "chat42" "p1" "👀",
                Op.addReaction "chat42" "p1" (reactionDoneEmoji envC7ok.outcome)])
    ∧ reactionDoneEmoji envC7ok.outcome = "✅" := by
  have h := reaction_swap_always_except_hook_veto envC7ok [] rfl rfl
  exact ⟨h.1, h.2.1 "fine" rfl⟩

theorem draftUpdateOps_classes (r d : String) :
    ∀ (ds : List String) (acc : String),
      (draftUpdateOps r d acc ds).filter Op.isUpdate = draftUpdateOps r d acc ds ∧
      (draftUpdateOps r d acc ds).filter Op.isDraftStart = [] ∧
      (draftUpdateOps r d acc ds).countP Op.isFinalizeOrCancel = 0 ∧
      (draftUpdateOps r d acc ds).countP Op.isPlainSend = 0 := by
  intro ds
  induction ds with
  | nil => intro acc; exact ⟨rfl, rfl, rfl, rfl⟩
  | cons delta rest ih =>
    intro acc
    by_cases hs : delta = DRAFT_CLEAR_SENTINEL
    · exact ⟨by simpa [draftUpdateOps, hs] using (ih "").1,
        by simpa [draftUpdateOps, hs] using (ih "").2.1,
        by simpa [draftUpdateOps, hs] using (ih "").2.2.1,
        by simpa [draftUpdateOps, hs] using (ih "").2.2.2⟩
    · refine ⟨?_, ?_, ?_, ?_⟩
      · simp [draftUpdateOps, hs, List.filter_cons, Op.isUpdate,
          (ih (acc ++ delta)).1]
      · simp [draftUpdateOps, hs, List.filter_cons, Op.isDraftStart,
          (ih (acc ++ delta)).2.1]
      · simp [draftUpdateOps, hs, List.countP_cons, Op.isFinalizeOrCancel,
          (ih (acc ++ delta)).2.2.1]
      · simp [draftUpdateOps, hs, List.countP_cons, Op.isPlainSend,
          (ih (acc ++ delta)).2.2.2]

theorem preRaceOps_draft_calls (env : PipelineEnv) (d : String)
    (hch : env.hasChannel = true) (hd : env.draftMessageId = some d) :
    (preRaceOps env).filter Op.isDraftStart
      = [Op.sendDraft env.msg.reply_target "..." env.sendDraftResult] ∧
    (preRaceOps env).filter Op.isUpdate
      = draftUpdateOps env.msg.reply_target d "" env.deltas ∧
    (preRaceOps env).countP Op.isFinalizeOrCancel = 0 ∧
    (preRaceOps env).countP Op.isPlainSend = 0 := by
  have hus : env.useStreaming = true := by
    by_cases h : env.useStreaming = true
    · exact h
    · rw [PipelineEnv.draftMessageId, if_neg h] at hd
      cases hd
  refine ⟨?_, ?_, ?_, ?_⟩
  · simp [preRaceOps, hus, hch, hd, List.filter_cons, List.filter_append,
      Op.isDraftStart, (draftUpdateOps_classes env.msg.reply_target d env.deltas "").2.1]
  · simp [preRaceOps, hus, hch, hd, List.filter_cons, List.filter_append,
      Op.isUpdate, (draftUpdateOps_classes env.msg.reply_target d env.deltas "").1]
  · simp [preRaceOps, hus, hch, hd, List.countP_cons, List.countP_append,
      Op.isFinalizeOrCancel,
      (draftUpdateOps_classes env.msg.reply_target d env.deltas "").2.2.1]
  · simp [preRaceOps, hus, hch, hd, List.countP_cons, List.countP_append,
      Op.isPlainSend, (draftUpdateOps_classes env.msg.reply_target d env.deltas "").2.2.2]

theorem postRace_draft_counts (env : PipelineEnv) (hist : List ChatMessage)
    (d : String) (hch : env.hasChannel = true) (hd : env.draftMessageId = some d) :
    (postRace env hist).1.countP Op.isUpdate = 0 ∧
    (postRace env hist).1.countP Op.isDraftStart = 0 ∧
    (hookVetoedSuccess env = false →
      (postRace env hist).1.countP Op.isFinalizeOrCancel = 1) ∧
    (hookVetoedSuccess env = true →
      (postRace env hist).1.countP Op.isFinalizeOrCancel = 0) ∧
    (env.finalizeFails = false → (postRace env hist).1.countP Op.isPlainSend = 0) := by
  cases hout : env.outcome with
  | cancelled =>
    refine ⟨?_, ?_, ?_, ?_, ?_⟩ <;>
      simp [postRace, hout, cancelPathOps, tailReactionOps, hch, hd,
        List.countP_cons, List.countP_append, Op.isUpdate, Op.isDraftStart,
        Op.isFinalizeOrCancel, Op.isPlainSend, hookVetoedSuccess]
  | completedOk resp =>
    cases hhook : env.hookSending with
    | none =>
      by_cases hff : env.finalizeFails = true <;>
        refine ⟨?_, ?_, ?_, ?_, ?_⟩ <;>
          simp [postRace, hout, successPath, hhook, tailReactionOps, hch, hd,
            hff, List.countP_cons, List.countP_append, Op.isUpdate,
            Op.isDraftStart, Op.isFinalizeOrCancel, Op.isPlainSend,
            hookVetoedSuccess]
    | some o =>
      cases o with
      | cancel reason =>
        refine ⟨?_, ?_, ?_, ?_, ?_⟩ <;>
          simp [postRace, hout, successPath, hhook, hookVetoedSuccess]
      | cont a b c =>
        by_cases hff : env.finalizeFails = true <;>
          refine ⟨?_, ?_, ?_, ?_, ?_⟩ <;>
            simp [postRace, hout, successPath, hhook, tailReactionOps, hch, hd,
              hff, List.countP_cons, List.countP_append, Op.isUpdate,
              Op.isDraftStart, Op.isFinalizeOrCancel, Op.isPlainSend,
              hookVetoedSuccess]
  | completedErr e =>
    by_cases hcs : (isToolLoopCancelled e || env.lateCancelSeen) = true
    · refine ⟨?_, ?_, ?_, ?_, ?_⟩ <;>
        simp [postRace, hout, errorPath, hcs, cancelPathOps, tailReactionOps,
          hch, hd, List.countP_cons, List.countP_append, Op.isUpdate,
          Op.isDraftStart, Op.isFinalizeOrCancel, Op.isPlainSend,
          hookVetoedSuccess]
    · by_cases hov : isContextWindowOverflowError e = true
      · simp only [Bool.not_eq_true] at hcs
        refine ⟨?_, ?_, ?_, ?_, ?_⟩ <;>
          simp [postRace, hout, errorPath, hcs, hov, deliverTextOps,
            tailReactionOps, hch, hd, List.countP_cons, List.countP_append,
            Op.isUpdate, Op.isDraftStart, Op.isFinalizeOrCancel,
            Op.isPlainSend, hookVetoedSuccess]
      · simp only [Bool.not_eq_true] at hcs hov
        by_cases hsr : shouldRollbackUserTurn e = true
        · by_cases hrb : (rollback_orphan_user_turn hist env.msg.content).2 = true
          · refine ⟨?_, ?_, ?_, ?_, ?_⟩ <;>
              simp [postRace, hout, errorPath, hcs, hov, hsr, hrb,
                deliverTextOps, tailReactionOps, hch, hd, List.countP_cons,
                List.countP_append, Op.isUpdate, Op.isDraftStart,
                Op.isFinalizeOrCancel, Op.isPlainSend, hookVetoedSuccess]
          · simp only [Bool.not_eq_true] at hrb
            refine ⟨?_, ?_, ?_, ?_, ?_⟩ <;>
              simp [postRace, hout, errorPath, hcs, hov, hsr, hrb,
                deliverTextOps, tailReactionOps, hch, hd, List.countP_cons,
                List.countP_append, Op.isUpdate, Op.isDraftStart,
                Op.isFinalizeOrCancel, Op.isPlainSend, hookVetoedSuccess]
        · simp only [Bool.not_eq_true] at hsr
          refine ⟨?_, ?_, ?_, ?_, ?_⟩ <;>
            simp [postRace, hout, errorPath, hcs, hov, hsr, deliverTextOps,
              tailReactionOps, hch, hd, List.countP_cons, List.countP_append,
              Op.isUpdate, Op.isDraftStart, Op.isFinalizeOrCancel,
              Op.isPlainSend, hookVetoedSuccess]
  | timedOut =>
    refine ⟨?_, ?_, ?_, ?_, ?_⟩ <;>
      simp [postRace, hout, timeoutPath, deliverTextOps, tailReactionOps, hch,
        hd, List.countP_cons, List.countP_append, Op.isUpdate, Op.isDraftStart,
        Op.isFinalizeOrCancel, Op.isPlainSend, hookVetoedSuccess]

/-- Pipeline run whose draft finalize fails, triggering the plain-send
fallback (message_pipeline.rs lines 408–415). -/
def envC8 : PipelineEnv :=
  { msg := pipeMsg, hasChannel := true, supportsDrafts := true,
    sendDraftResult := some "d1", deltas := [],
    outcome := .completedOk "reply", hookSending := none,
    lateCancelSeen := false, finalizeFails := true, toolSummary := "",
    sanitizeResp := fun s => s, messageTimeoutSecs := 30,
    maxToolIterations := 5 }

/-- C8 counterexample: when `finalize_draft` fails on the success path,
the reply is re-sent as a plain `send`, so the channel receives both a
`finalize_draft` call and a plain `send` for the same message. -/
theorem finalize_failure_falls_back_to_send :
    Op.finalizeDraft "chat42" "d1" "reply" ∈ (pipelineRun envC8 []).1
    ∧ Op.send "reply" "chat42" none ∈ (pipelineRun envC8 []).1
    ∧ envC8.draftMessageId = some "d1" := by decide

/-- C8 amended: with a draft open, the channel sees exactly one
`send_draft` (the first draft call), then the accumulated `update_draft`
stream (clear sentinel resetting the accumulation), and — unless the
outbound hook vetoes a successful reply — exactly one closing
`finalize_draft`/`cancel_draft`; on a hook veto the draft gets no closing
call at all; and no plain `send` occurs unless `finalize_draft` fails. The
post-race phase never emits another `send_draft` or `update_draft`. -/
theorem draft_lifecycle_exceptions (env : PipelineEnv)
    (hist : List ChatMessage) (d : String)
    (hch : env.hasChannel = true) (hd : env.draftMessageId = some d) :
    (pipelineRun env hist).1.filter Op.isDraftStart
      = [Op.sendDraft env.msg.reply_target "..." env.sendDraftResult] ∧
    (pipelineRun env hist).1.filter Op.isUpdate
      = draftUpdateOps env.msg.reply_target d "" env.deltas ∧
    (hookVetoedSuccess env = false →
      (pipelineRun env hist).1.countP Op.isFinalizeOrCancel = 1) ∧
    (hookVetoedSuccess env = true →
      (pipelineRun env hist).1.countP Op.isFinalizeOrCancel = 0) ∧
    (env.finalizeFails = false →
      (pipelineRun env hist).1.countP Op.isPlainSend = 0) ∧
    (postRace env (hist ++ [ChatMessage.user env.msg.content])).1.countP
      Op.isUpdate = 0 ∧
    (postRace env (hist ++ [ChatMessage.user env.msg.content])).1.countP
      Op.isDraftStart = 0 := by
  obtain ⟨hpre1, hpre2, hpre3, hpre4⟩ := preRaceOps_draft_calls env d hch hd
  obtain ⟨hpo1, hpo2, hpo3, hpo4, hpo5⟩ := postRace_draft_counts env
    (hist ++ [ChatMessage.user env.msg.content]) d hch hd
  have hrun : (pipelineRun env hist).1
      = preRaceOps env
        ++ (postRace env (hist ++ [ChatMessage.user env.msg.content])).1 := rfl
  refine ⟨?_, ?_, ?_, ?_, ?_, hpo1, hpo2⟩
  · rw [hrun, List.filter_append, hpre1,
      List.filter_eq_nil_iff.mpr (List.countP_eq_zero.mp hpo2),
      List.append_nil]
  · rw [hrun, List.filter_append, hpre2,
      List.filter_eq_nil_iff.mpr (List.countP_eq_zero.mp hpo1),
      List.append_nil]
  · intro hv
    rw [hrun, List.countP_append, hpre3, hpo3 hv]
  · intro hv
    rw [hrun, List.countP_append, hpre3, hpo4 hv]
  · intro hff
    rw [hrun, List.countP_append, hpre4, hpo5 hff]

theorem draft_lifecycle_exceptions_witness :
    (pipelineRun envC4 []).1.filter Op.isDraftStart
      = [Op.sendDraft "chat42" "..." (some "d9")] ∧
    (pipelineRun envC4 []).1.countP Op.isFinalizeOrCancel = 1 ∧
    (pipelineRun envC4 []).1.countP Op.isPlainSend = 0 := by
  have h := draft_lifecycle_exceptions envC4 [] "d9" rfl (by decide)
  exact ⟨h.1, h.2.2.1 rfl, h.2.2.2.2.1 rfl⟩

theorem containsList_append_of_right {n l2 : List Char} (l1 : List Char)
    (h : containsList n l2 = true) : containsList n (l1 ++ l2) = true := by
  induction l1 with
  | nil => simpa using h
  | cons c rest ih => simp [containsList, ih]

/-- C9: for every plugin subprocess invocation, a non-success exit
status, an empty (trimmed) stdout, or an unparseable stdout is a hard
failure; and a parsed response with `ok = false` surfaces as a failure whose
message contains the plugin-supplied error string — never as a success with
null data. -/
theorem plugin_invoke_failure_modes (α : Type)
    (subsystem pluginId operation : String) (tsec : Nat)
    (out : SubprocessOutcome) (parsed : Option (PluginResponse α)) :
    (out.statusSuccess = false →
      ∃ m, pluginInvoke subsystem pluginId operation tsec out parsed
        = .failure m)
    ∧ (strTrim out.stdout = "" →
      ∃ m, pluginInvoke subsystem pluginId operation tsec out parsed
        = .failure m)
    ∧ (parsed = none →
      ∃ m, pluginInvoke subsystem pluginId operation tsec out parsed
        = .failure m)
    ∧ (∀ (r : PluginResponse α) (s : String), parsed = some r → r.ok = false →
      r.error = some s → strTrim s ≠ "" → out.timedOut = false →
      out.statusSuccess = true → ¬ (strTrim out.stdout = "") →
      ∃ m, pluginInvoke subsystem pluginId operation tsec out parsed
          = .failure m
        ∧ strContains m s = true) := by
  have hsucc : ∀ dta : Option α,
      pluginInvoke subsystem pluginId operation tsec out parsed = .success dta →
      out.statusSuccess = true ∧ ¬(strTrim out.stdout = "") ∧
      ∃ r : PluginResponse α, parsed = some r ∧ r.ok = true := by
    intro dta h
    unfold pluginInvoke at h
    split at h
    · cases h
    · split at h
      · cases h
      · next hss2 =>
        split at h
        · cases h
        · next hstd =>
          cases parsed with
          | none => cases h
          | some r =>
            have h2 : (if (!r.ok) = true then
                InvokeResult.failure (subsystem ++ " plugin '" ++ pluginId
                  ++ "' failed '" ++ operation ++ "': "
                  ++ pluginErrorDetail r.error)
              else InvokeResult.success r.data)
                = InvokeResult.success dta := h
            split at h2
            · cases h2
            · rename_i hok
              refine ⟨by simpa using hss2, hstd, r, rfl, by simpa using hok⟩
  have hbyCases : ∀ P : Prop,
      (∀ m, pluginInvoke subsystem pluginId operation tsec out parsed
        = .failure m → P) →
      (∀ dta, pluginInvoke subsystem pluginId operation tsec out parsed
        = .success dta → P) → P := by
    intro P hf hs
    cases hres : pluginInvoke subsystem pluginId operation tsec out parsed with
    | failure m => exact hf m hres
    | success dta => exact hs dta hres
  refine ⟨?_, ?_, ?_, ?_⟩
  · intro hss
    refine hbyCases _ (fun m hm => ⟨m, hm⟩) (fun dta hd => ?_)
    have := (hsucc dta hd).1
    rw [hss] at this
    cases this
  · intro hstd
    refine hbyCases _ (fun m hm => ⟨m, hm⟩) (fun dta hd => ?_)
    exact absurd hstd (hsucc dta hd).2.1
  · intro hp
    refine hbyCases _ (fun m hm => ⟨m, hm⟩) (fun dta hd => ?_)
    obtain ⟨r, hr, _⟩ := (hsucc dta hd).2.2
    rw [hp] at hr
    cases hr
  · intro r s hp hok herr htrim hto hss hstd
    have hres : pluginInvoke subsystem pluginId operation tsec out parsed
        = .failure (subsystem ++ " plugin '" ++ pluginId ++ "' failed '"
            ++ operation ++ "': " ++ s) := by
      simp [pluginInvoke, hto, hss, hstd, hp, hok, pluginErrorDetail, herr, htrim]
    exact ⟨_, hres, strContains_append_right _ s⟩

/-- The scenario-C subprocess outcome: exit 0 with
`{"ok":false,"error":"boom"}` on stdout. -/
def boomOutcome : SubprocessOutcome :=
  { timedOut := false, statusSuccess := true, statusCode := some 0,
    stdout := "\x7b\"ok\":false,\"error\":\"boom\"\x7d", stderr := "" }

/-- The parsed form of the scenario-C response document. -/
def boomResponse : PluginResponse Bool :=
  { ok := false, data := none, error := some "boom" }

theorem plugin_invoke_failure_modes_witness :
    pluginInvoke "channel" "probe" "listen" 5 boomOutcome (some boomResponse)
      = .failure "channel plugin 'probe' failed 'listen': boom"
    ∧ strContains "channel plugin 'probe' failed 'listen': boom" "boom" = true := by
  obtain ⟨m, h1, h2⟩ :=
    (plugin_invoke_failure_modes Bool "channel" "probe" "listen" 5 boomOutcome
      (some boomResponse)).2.2.2 boomResponse "boom" rfl rfl rfl
      (by decide) rfl rfl (by decide)
  have hval : pluginInvoke "channel" "probe" "listen" 5 boomOutcome
      (some boomResponse)
      = InvokeResult.failure "channel plugin 'probe' failed 'listen': boom" := by
    decide
  refine ⟨hval, ?_⟩
  have h3 := h1.symm.trans hval
  injection h3 with h4
  rw [← h4]
  exact h2


end ZeroClaw
